import Mathlib

/-!
Verification development for the Game Export Utility Blender add-on
(src/GameExportUtility.py).  The add-on is a thin orchestration layer over
the host application's scene graph: it snapshots the selected objects'
transforms and vertex data, applies one of three origin-placement
policies, moves the objects to the world origin, invokes the host
exporter (single-file or per-object batch), and restores the snapshot in
a guaranteed-cleanup (`finally`) block.

The embedding below models the scene state over exact rationals:
an object carries its name, type, world transform (a 3x3 linear part
plus a translation, which is how Blender factors `matrix_world` for the
operations used here), its mesh vertex list and the names of its
children.  Host operators (`bpy.ops.*`) that the add-on invokes are
modelled by explicit state transformers; host exporter invocations are
recorded as events together with the exact keyword set passed at each
call site.  Exceptions (Python `AttributeError` for a missing scene
attribute, `TypeError` for an unrecognized operator keyword, and host
exporter failures) are modelled by an error-carrying result that keeps
the state at the raise point, so that the `finally` restore phase can be
stated faithfully.
-/

/-- Exact 3-component vector (Blender `mathutils.Vector` over ℚ). -/
structure Vec3 where
  x : ℚ
  y : ℚ
  z : ℚ
deriving DecidableEq, Repr

instance : Add Vec3 := ⟨fun a b => ⟨a.x + b.x, a.y + b.y, a.z + b.z⟩⟩

instance : Sub Vec3 := ⟨fun a b => ⟨a.x - b.x, a.y - b.y, a.z - b.z⟩⟩

/-- The zero vector (world origin). -/
def vzero : Vec3 := ⟨0, 0, 0⟩

/-- A 3x3 matrix over ℚ: the linear (rotation/scale) part of a transform. -/
structure Mat3 where
  m00 : ℚ
  m01 : ℚ
  m02 : ℚ
  m10 : ℚ
  m11 : ℚ
  m12 : ℚ
  m20 : ℚ
  m21 : ℚ
  m22 : ℚ
deriving DecidableEq, Repr

/-- Identity matrix. -/
def Mat3.id : Mat3 := ⟨1, 0, 0, 0, 1, 0, 0, 0, 1⟩

/-- Matrix-vector product. -/
def Mat3.mulVec (A : Mat3) (v : Vec3) : Vec3 :=
  ⟨A.m00 * v.x + A.m01 * v.y + A.m02 * v.z,
   A.m10 * v.x + A.m11 * v.y + A.m12 * v.z,
   A.m20 * v.x + A.m21 * v.y + A.m22 * v.z⟩

/-- Determinant. -/
def Mat3.det (A : Mat3) : ℚ :=
  A.m00 * (A.m11 * A.m22 - A.m12 * A.m21)
  - A.m01 * (A.m10 * A.m22 - A.m12 * A.m20)
  + A.m02 * (A.m10 * A.m21 - A.m11 * A.m20)

/-- Adjugate (transposed cofactor matrix). -/
def Mat3.adj (A : Mat3) : Mat3 :=
  ⟨A.m11 * A.m22 - A.m12 * A.m21, A.m02 * A.m21 - A.m01 * A.m22, A.m01 * A.m12 - A.m02 * A.m11,
   A.m12 * A.m20 - A.m10 * A.m22, A.m00 * A.m22 - A.m02 * A.m20, A.m02 * A.m10 - A.m00 * A.m12,
   A.m10 * A.m21 - A.m11 * A.m20, A.m01 * A.m20 - A.m00 * A.m21, A.m00 * A.m11 - A.m01 * A.m10⟩

/-- Scalar multiple. -/
def Mat3.smul (k : ℚ) (A : Mat3) : Mat3 :=
  ⟨k * A.m00, k * A.m01, k * A.m02, k * A.m10, k * A.m11, k * A.m12,
   k * A.m20, k * A.m21, k * A.m22⟩

/-- Computable matrix inverse (adjugate over determinant; arbitrary for a
singular matrix, where Blender's own behaviour is likewise degenerate). -/
def Mat3.inv3 (A : Mat3) : Mat3 := Mat3.smul (1 / A.det) (A.adj)

/-- World transform of an object, factored into the linear
(rotation/scale) part and the translation, as Blender's `matrix_world`
factors for the operations this add-on performs. -/
structure Aff where
  lin : Mat3
  tr : Vec3
deriving DecidableEq, Repr

/-- Apply an affine transform to a point. -/
def Aff.apply (m : Aff) (v : Vec3) : Vec3 := m.lin.mulVec v + m.tr

/-- Object types distinguished by the add-on: meshes, empties (markers),
and everything else (curves, lights, cameras, ...). -/
inductive ObjType
  | MESH
  | EMPTY
  | OTHER
deriving DecidableEq, Repr

/-- A scene object: name (unique identity in Blender), type, world
transform, mesh vertex positions (object-local), and child names.
For an unparented object, `location` is the translation component of
`matrix_world`; the objects this add-on mutates through `location` are
the selected (top-level) ones, so `location` reads/writes are modelled
on `matrix_world.tr`. -/
structure Obj where
  name : String
  type : ObjType
  matrix_world : Aff
  vertices : List Vec3
  children : List String
deriving DecidableEq, Repr

/-- Export format enum (`scene.export_types`). -/
inductive ExpFormat
  | FBX
  | OBJ
deriving DecidableEq, Repr

/-- Lowercase file extension, `export_format.lower()` in the source. -/
def ExpFormat.lower : ExpFormat → String
  | .FBX => "fbx"
  | .OBJ => "obj"

/-- FBX vertex-color export mode (`use_vertex_colors_fbx`). -/
inductive VCol
  | NONE
  | SRGB
  | LINEAR
deriving DecidableEq, Repr

/-- The scene-attached properties the add-on reads.  `selected_empty` is
`none` when no such attribute has been defined on the scene (the add-on
itself never registers one; reading it then raises `AttributeError`),
and `some s` when defined with string value `s` (`""` is falsy). -/
structure SceneProps where
  export_types : ExpFormat
  batch_export : Bool
  mesh_directory_path : String
  set_file_name : String
  origin_at_bottom : Bool
  custom_origin : Bool
  selected_empty : Option String
  include_modifiers_fbx : Bool
  use_triangles_fbx : Bool
  use_vertex_colors_fbx : VCol
  include_modifiers_obj : Bool
  use_triangles_obj : Bool
deriving DecidableEq, Repr

/-- The live document state: the scene's objects, the 3D cursor, the
selection (ordered list of object names), the active object, and the
scene properties. -/
structure State where
  objects : List Obj
  cursor : Vec3
  selected : List String
  active : Option String
  props : SceneProps
deriving DecidableEq, Repr

/-- Look up an object by name (Blender names are unique identities). -/
def State.find (s : State) (n : String) : Option Obj :=
  s.objects.find? (fun o => o.name = n)

/-- Rewrite the object(s) named `n` with `f`. -/
def State.update (s : State) (n : String) (f : Obj → Obj) : State :=
  { s with objects := s.objects.map (fun o => if o.name = n then f o else o) }

/-- Errors the add-on can let propagate: Python `AttributeError` (reading
the unregistered `scene.selected_empty`, or `.name` on a `None` active
object), `TypeError` (an unrecognized keyword passed to a host
operator), and a host exporter failure. -/
inductive HostErr
  | attributeError
  | typeError
  | exporterFailed
deriving DecidableEq, Repr

/-- Result of a state-mutating step that can raise: on `err` the state at
the raise point is kept, since the `finally` block runs on it. -/
inductive PRes
  | ok (s : State)
  | err (e : HostErr) (s : State)
deriving DecidableEq, Repr

/-- The state carried by a `PRes`, whether it succeeded or raised. -/
def PRes.state : PRes → State
  | .ok s => s
  | .err _ s => s

/-- Keyword set passed to `bpy.ops.wm.obj_export` at a call site.  The
two `Option Bool` fields record whether the (correctly spelled)
`export_triangulated_mesh` keyword and the misspelled
`export_trianguled_mesh` keyword were passed, and with which value. -/
structure ObjKwargs where
  filepath : String
  export_selected_objects : Bool
  apply_modifiers : Bool
  export_triangulated_mesh : Option Bool
  export_trianguled_mesh : Option Bool
deriving DecidableEq, Repr

/-- Observable side effects of one operator run. -/
inductive Effect
  | savedMainFile
  | reportedError (msg : String)
  | ensuredDir (path : String)
  | fbxExport (filepath : String) (use_selection : Bool) (use_mesh_modifiers : Bool)
      (use_triangles : Bool) (colors_type : VCol)
  | objExport (k : ObjKwargs)
deriving DecidableEq, Repr

/-- State, accumulated events, and a pending exception (if any) of the
`try` body. -/
structure Tr where
  state : State
  events : List Effect
  error : Option HostErr
deriving DecidableEq, Repr

/-- Operator return value: `{'FINISHED'}`, `{'CANCELLED'}`, or an
exception propagating out of `execute` after the `finally` block ran. -/
inductive OpResult
  | FINISHED
  | CANCELLED
  | raised (e : HostErr)
deriving DecidableEq, Repr

/-- Result of one `execute` invocation. -/
structure ExecOut where
  result : OpResult
  final : State
  events : List Effect
deriving DecidableEq, Repr

/-- Model of `bpy.path.clean_name`: every character other than an ASCII letter or
digit is replaced by an underscore (host path-name sanitizer). -/
def cleanName (s : String) : String :=
  ⟨s.data.map (fun c => if c.isAlphanum then c else '_')⟩

deriving instance DecidableEq for Except

/-- First-match association-list lookup (Python `dict` access, with the
add-on's keys being unique object names). -/
def alookup {β : Type} (n : String) : List (String × β) → Option β
  | [] => none
  | p :: r => if p.1 = n then some p.2 else alookup n r

/-- Model of `bpy.ops.object.transform_apply(rotation=True, scale=True)`: for
every selected object, the rotation/scale part of its transform is baked
into the object data (vertices), leaving the transform translation-only. -/
def transform_apply_rot_scale (s : State) : State :=
  s.selected.foldl
    (fun st n =>
      st.update n (fun o =>
        { o with
          vertices := o.vertices.map (fun v => o.matrix_world.lin.mulVec v),
          matrix_world := ⟨Mat3.id, o.matrix_world.tr⟩ }))
    s

/-- Model of `bpy.ops.object.origin_set(type='ORIGIN_CURSOR', center='MEDIAN')`:
for every selected object, the origin moves to the 3D cursor.  The world
translation becomes the cursor position and the object-local vertex data
shifts so the world-space geometry is unchanged; Blender compensates
child transforms, so other objects' world matrices are untouched. -/
def origin_set_cursor (s : State) : State :=
  s.selected.foldl
    (fun st n =>
      st.update n (fun o =>
        { o with
          matrix_world := ⟨o.matrix_world.lin, st.cursor⟩,
          vertices := o.vertices.map
            (fun v => v + (Mat3.inv3 o.matrix_world.lin).mulVec (o.matrix_world.tr - st.cursor)) }))
    s

/-- Python `min` over a list of rationals (total; the source only applies
it to the 8 corners of a bound box, which is never empty). -/
def qmin : List ℚ → ℚ
  | [] => 0
  | a :: r => r.foldl min a

/-- Minimum of `f` over a vertex list (0 for an empty list). -/
def lmin (f : Vec3 → ℚ) : List Vec3 → ℚ
  | [] => 0
  | v :: r => r.foldl (fun a w => min a (f w)) (f v)

/-- Maximum of `f` over a vertex list (0 for an empty list). -/
def lmax (f : Vec3 → ℚ) : List Vec3 → ℚ
  | [] => 0
  | v :: r => r.foldl (fun a w => max a (f w)) (f v)

/-- Model of `obj.bound_box`: the 8 corners of the object-local axis-aligned
bounding box, in Blender's documented corner order. -/
def boundBox (l : List Vec3) : List Vec3 :=
  [⟨lmin Vec3.x l, lmin Vec3.y l, lmin Vec3.z l⟩,
   ⟨lmin Vec3.x l, lmin Vec3.y l, lmax Vec3.z l⟩,
   ⟨lmin Vec3.x l, lmax Vec3.y l, lmax Vec3.z l⟩,
   ⟨lmin Vec3.x l, lmax Vec3.y l, lmin Vec3.z l⟩,
   ⟨lmax Vec3.x l, lmin Vec3.y l, lmin Vec3.z l⟩,
   ⟨lmax Vec3.x l, lmin Vec3.y l, lmax Vec3.z l⟩,
   ⟨lmax Vec3.x l, lmax Vec3.y l, lmax Vec3.z l⟩,
   ⟨lmax Vec3.x l, lmax Vec3.y l, lmin Vec3.z l⟩]

/-- The point the source derives from the bound box `bb`:
`Vector(((bb[0][0] + bb[6][0]) / 2, (bb[0][1] + bb[2][1]) / 2, min_z))`
with `min_z = min(point[2] for point in bb)`. -/
def bbTarget (l : List Vec3) : Vec3 :=
  let bb := boundBox l
  let min_z := qmin (bb.map Vec3.z)
  ⟨((bb.getD 0 vzero).x + (bb.getD 6 vzero).x) / 2,
   ((bb.getD 0 vzero).y + (bb.getD 2 vzero).y) / 2,
   min_z⟩

/-- Embedding of `set_origin_at_bottom(obj)` (source lines 100-113): applies pending
rotation/scale (a host operator acting on the whole selection), computes
the bound-box point, records its world position through the current
(post-apply, pre-translation) world matrix, then translates the mesh
data by the negation of the point
(`obj.data.transform(Matrix.Translation(-centroid))`).  Returns the
updated state together with the returned world-space origin.  The
mode-set guard is omitted: the model keeps all objects in object mode. -/
def set_origin_at_bottom (n : String) (s : State) : State × Vec3 :=
  let s1 := transform_apply_rot_scale s
  match s1.find n with
  | none => (s1, vzero)
  | some obj =>
    let centroid := bbTarget obj.vertices
    let world_new_origin := obj.matrix_world.apply centroid
    (s1.update n (fun o => { o with vertices := o.vertices.map (fun v => v - centroid) }),
     world_new_origin)

/-- The child-marker search in `set_origin_to_custom`:
`next((child for child in obj.children if child.type == 'EMPTY' and
(not context.scene.selected_empty or child.name == context.scene.selected_empty)), None)`.
The generator reads `scene.selected_empty` lazily, only when it reaches
a child of type `EMPTY`; with the attribute undefined that read raises
`AttributeError`. -/
def findCustomEmpty (s : State) : List String → Except HostErr (Option Obj)
  | [] => .ok none
  | c :: rest =>
    match s.find c with
    | none => findCustomEmpty s rest
    | some child =>
      if child.type = ObjType.EMPTY then
        match s.props.selected_empty with
        | none => .error .attributeError
        | some se =>
          if se = "" ∨ child.name = se then .ok (some child)
          else findCustomEmpty s rest
      else findCustomEmpty s rest

/-- Embedding of `process_obj(obj, context)` inside `set_origin_to_custom` (source
lines 116-137): non-meshes are skipped; if a matching child empty is
found, the 3D cursor moves to its world translation, the object becomes
the sole selected and active object, and the cursor-anchored origin-set
runs; otherwise nothing happens. -/
def processObj (n : String) (s : State) : PRes :=
  match s.find n with
  | none => .ok s
  | some obj =>
    if obj.type = ObjType.MESH then
      match findCustomEmpty s obj.children with
      | .error e => .err e s
      | .ok none => .ok s
      | .ok (some ce) =>
        let s1 := { s with cursor := ce.matrix_world.tr }
        let s2 := { s1 with selected := [] }
        let s3 := { s2 with selected := [n], active := some n }
        .ok (origin_set_cursor s3)
    else .ok s

/-- One pass of the per-object processing loop in
`set_origin_to_custom`; an exception propagates out of the loop. -/
def processLoop : List String → State → PRes
  | [], s => .ok s
  | n :: r, s =>
    match processObj n s with
    | .ok s1 => processLoop r s1
    | .err e s1 => .err e s1

/-- Embedding of `set_origin_to_custom(selected_objects, context)` (source lines
115-151): the source contains the same per-object processing loop twice
in sequence (a duplicated block), so the whole function is the loop run
twice.  (`execute` always passes a list, so only the list branch of the
`isinstance` dispatch is exercised; the single-object branch likewise
calls `process_obj` twice.) -/
def set_origin_to_custom (sel : List String) (s : State) : PRes :=
  match processLoop sel s with
  | .ok s1 => processLoop sel s1
  | .err e s1 => .err e s1

/-- The default-policy loop in `execute` (source lines 239-244): for
each selected object, move the cursor to the object's location, make it
the sole selected and active object, and run the cursor-anchored
origin-set. -/
def cursorOriginLoop (sel : List String) (s : State) : State :=
  sel.foldl
    (fun st n =>
      match st.find n with
      | none => st
      | some o =>
        let st1 := { st with cursor := o.matrix_world.tr }
        let st2 := { st1 with selected := [] }
        let st3 := { st2 with selected := [n], active := some n }
        origin_set_cursor st3)
    s

/-- The `origin_at_bottom` loop in `execute` (source lines 236-237). -/
def bottomFold (sel : List String) (s : State) : State :=
  sel.foldl (fun st n => (set_origin_at_bottom n st).1) s

/-- The origin-handling dispatch in `execute` (source lines 232-244):
`custom_origin` takes precedence over `origin_at_bottom`, which takes
precedence over the default cursor-at-object policy. -/
def originPhase (sel : List String) (s : State) : PRes :=
  if s.props.custom_origin then set_origin_to_custom sel s
  else if s.props.origin_at_bottom then .ok (bottomFold sel s)
  else .ok (cursorOriginLoop sel s)

/-- The move-to-origin loop (source lines 247-248): every selected
object's location is set to `(0, 0, 0)`. -/
def zeroLocations (sel : List String) (s : State) : State :=
  sel.foldl
    (fun st n => st.update n (fun o => { o with matrix_world := ⟨o.matrix_world.lin, vzero⟩ }))
    s

/-- A `bpy.ops.export_scene.fbx(...)` call site: the event records the
arguments; the call raises only if the host exporter itself fails
(`orc` oracle). -/
def callFbx (path : String) (mods tria : Bool) (cols : VCol) (orc : Bool)
    (s : State) (evs : List Effect) : Tr :=
  let evs1 := evs ++ [Effect.fbxExport path true mods tria cols]
  if orc then ⟨s, evs1, some .exporterFailed⟩ else ⟨s, evs1, none⟩

/-- A `bpy.ops.wm.obj_export(...)` call site: the event records the
keyword set passed; a keyword the host does not recognize (the
misspelled `export_trianguled_mesh`) makes the host raise `TypeError`
during argument conversion; otherwise the call raises only if the host
exporter itself fails. -/
def callObjExport (k : ObjKwargs) (orc : Bool) (s : State) (evs : List Effect) : Tr :=
  let evs1 := evs ++ [Effect.objExport k]
  if k.export_trianguled_mesh.isSome then ⟨s, evs1, some .typeError⟩
  else if orc then ⟨s, evs1, some .exporterFailed⟩
  else ⟨s, evs1, none⟩

/-- Embedding of `export_objects(...)` (source lines 176-201): per-object batch
export.  Each object in turn becomes active and the sole selected
object; the per-object filename is the sanitized object name plus the
lowercase format extension; the OBJ branch passes `apply_modifiers=True`
and `export_triangulated_mesh=True` unconditionally, ignoring the OBJ
option flags. -/
def export_objects (fmt : ExpFormat) (dir : String) (mods tria : Bool) (cols : VCol)
    (orc : Bool) : List String → State → List Effect → Tr
  | [], s, evs => ⟨s, evs, none⟩
  | n :: r, s, evs =>
    let s1 := { s with active := some n, selected := [n] }
    let path := dir ++ "/" ++ cleanName n ++ "." ++ fmt.lower
    let t :=
      match fmt with
      | .FBX => callFbx path mods tria cols orc s1 evs
      | .OBJ => callObjExport ⟨path, true, true, some true, none⟩ orc s1 evs
    match t.error with
    | some _ => t
    | none => export_objects fmt dir mods tria cols orc r t.state t.events

/-- The non-batch export branch of `execute` (source lines 263-287):
select all targeted objects, derive the base name from the sanitized
user-supplied name or, when it is empty, the active object's name
(raising `AttributeError` when there is no active object), and invoke
the exporter once.  The OBJ call passes `apply_modifiers=True` and the
misspelled keyword `export_trianguled_mesh=True`. -/
def singleExport (sel : List String) (fmt : ExpFormat) (dir : String) (mods tria : Bool)
    (cols : VCol) (orc : Bool) (s : State) (evs : List Effect) : Tr :=
  let s1 := { s with selected := sel }
  let doCall : String → Tr := fun base =>
    let path := dir ++ "/" ++ base ++ "." ++ fmt.lower
    match fmt with
    | .FBX => callFbx path mods tria cols orc s1 evs
    | .OBJ => callObjExport ⟨path, true, true, none, some true⟩ orc s1 evs
  if s1.props.set_file_name = "" then
    match s1.active with
    | none => ⟨s1, evs, some .attributeError⟩
    | some an => doCall (cleanName an)
  else doCall (cleanName s1.props.set_file_name)

/-- The selection filter at the top of `execute` (source line 213):
`[obj for obj in context.selected_objects if obj.type != 'EMPTY']`. -/
def filteredSelection (s : State) : List String :=
  s.selected.filter (fun n =>
    match s.find n with
    | some o => decide (o.type ≠ ObjType.EMPTY)
    | none => false)

/-- Snapshot `original_matrices` (source lines 222-224): world matrices
of the selected mesh objects, keyed by name. -/
def snapMats (s : State) : List String → List (String × Aff)
  | [] => []
  | n :: r =>
    match s.find n with
    | some o => if o.type = ObjType.MESH then (n, o.matrix_world) :: snapMats s r else snapMats s r
    | none => snapMats s r

/-- Snapshot `original_vertices` (source line 225): vertex positions of
the selected mesh objects, keyed by name. -/
def snapVerts (s : State) : List String → List (String × List Vec3)
  | [] => []
  | n :: r =>
    match s.find n with
    | some o => if o.type = ObjType.MESH then (n, o.vertices) :: snapVerts s r else snapVerts s r
    | none => snapVerts s r

/-- The child-empty transforms captured for one object's children
(source lines 227-229). -/
def snapChildEmpties (s : State) (cs : List String) : List (String × Aff) :=
  cs.filterMap (fun c =>
    match s.find c with
    | some ch => if ch.type = ObjType.EMPTY then some (ch.name, ch.matrix_world) else none
    | none => none)

/-- Snapshot `original_empty_transforms`: world matrices of every child
empty of every selected object.  (Two entries with the same key always
carry the same matrix, since both come from the same named object, so
the Python dict's last-write-wins and this list agree.) -/
def snapEmpties (s : State) : List String → List (String × Aff)
  | [] => []
  | n :: r =>
    match s.find n with
    | some o => snapChildEmpties s o.children ++ snapEmpties s r
    | none => snapEmpties s r

/-- Python `for i, v in enumerate(obj.data.vertices): v.co = snap[i]`:
each current vertex is overwritten from the snapshot at its index
(total model; the source would raise `IndexError` if the current list
outgrew the snapshot, which no phase of this add-on can cause). -/
def restoreVerts : List Vec3 → List Vec3 → List Vec3
  | [], _ => []
  | _ :: c, w :: sn => w :: restoreVerts c sn
  | _ :: c, [] => vzero :: restoreVerts c []

/-- One iteration of the object-restore loop (source lines 291-297):
vertices are restored for meshes with a snapshot entry, then the world
matrix for objects with a matrix entry. -/
def restoreStep (mats : List (String × Aff)) (verts : List (String × List Vec3))
    (st : State) (n : String) : State :=
  match st.find n with
  | none => st
  | some o =>
    let st1 :=
      if o.type = ObjType.MESH then
        match alookup n verts with
        | some vs => st.update n (fun ob => { ob with vertices := restoreVerts ob.vertices vs })
        | none => st
      else st
    match alookup n mats with
    | some m => st1.update n (fun ob => { ob with matrix_world := m })
    | none => st1

/-- One iteration of the child-empty restore loop (source lines
299-302): `bpy.data.objects.get(empty_name)` guards existence, then the
world matrix is reassigned. -/
def restoreEmptyStep (st : State) (p : String × Aff) : State :=
  match st.find p.1 with
  | some _ => st.update p.1 (fun o => { o with matrix_world := p.2 })
  | none => st

/-- The full `finally` block (source lines 289-304): restore vertices
and matrices for the selected objects, restore every snapshotted child
empty's matrix (when an object of that name still exists), then snap the
cursor to the world center. -/
def restoreState (sel : List String) (mats : List (String × Aff))
    (verts : List (String × List Vec3)) (emps : List (String × Aff)) (s : State) : State :=
  let s1 := sel.foldl (restoreStep mats verts) s
  let s2 := emps.foldl restoreEmptyStep s1
  { s2 with cursor := vzero }

/-- The body of the `try` block (source lines 231-287): origin handling,
move to origin, then the export phase, reading the option state from the
(unmutated) scene properties.  `orc` is the host-exporter oracle: when
true, a well-formed exporter call fails on the host side. -/
def tryBody (orc : Bool) (sel : List String) (s : State) : Tr :=
  match originPhase sel s with
  | .err e s1 => ⟨s1, [], some e⟩
  | .ok s1 =>
    let s2 := zeroLocations sel s1
    let mods := s2.props.include_modifiers_fbx
    let tria := s2.props.use_triangles_fbx
    let cols := s2.props.use_vertex_colors_fbx
    let fmt := s2.props.export_types
    let dir := s2.props.mesh_directory_path
    let evs := [Effect.ensuredDir dir]
    if s2.props.batch_export then export_objects fmt dir mods tria cols orc sel s2 evs
    else singleExport sel fmt dir mods tria cols orc s2 evs

/-- Embedding of `OBJECT_OT_ExportOperator.execute` (source lines 208-306): save the
document, filter the selection, cancel with an error if nothing
remains, snapshot, run the `try` body, and always run the restore block;
an exception from the `try` body propagates after the restore. -/
def execute (orc : Bool) (s : State) : ExecOut :=
  let sel := filteredSelection s
  if sel = [] then
    ⟨.CANCELLED, s, [.savedMainFile, .reportedError "No valid mesh objects to export."]⟩
  else
    let mats := snapMats s sel
    let verts := snapVerts s sel
    let emps := snapEmpties s sel
    let t := tryBody orc sel s
    let fin := restoreState sel mats verts emps t.state
    ⟨match t.error with | none => .FINISHED | some e => .raised e, fin, .savedMainFile :: t.events⟩

/-- The scene-level properties the module defines (the `scene.X = ...`
assignments at lines 24, 67, 74, 82, 89, 94 and the pointer group added
in `register()`); `selected_empty` is not among them. -/
def registeredSceneProps : List String :=
  ["export_types", "batch_export", "mesh_directory_path", "set_file_name",
   "origin_at_bottom", "custom_origin", "ExportOptions"]

/-- The filepaths of the exporter invocations in an event list. -/
def exportCallPaths (evs : List Effect) : List String :=
  evs.filterMap (fun e =>
    match e with
    | .fbxExport p _ _ _ _ => some p
    | .objExport k => some k.filepath
    | _ => none)

/-! ### Witness fixtures: small concrete scenes used to instantiate the
theorems below on concrete inputs. -/

/-- Default option state used by the concrete scenes. -/
def wProps : SceneProps :=
  { export_types := .FBX, batch_export := false, mesh_directory_path := "d",
    set_file_name := "f", origin_at_bottom := false, custom_origin := false,
    selected_empty := some "", include_modifiers_fbx := false, use_triangles_fbx := false,
    use_vertex_colors_fbx := .NONE, include_modifiers_obj := false, use_triangles_obj := false }

/-- A mesh with a child empty, carrying a non-trivial rotation/scale. -/
def wMesh : Obj :=
  { name := "M", type := .MESH, matrix_world := ⟨⟨2, 0, 0, 0, 3, 0, 0, 0, 1⟩, ⟨1, 1, 1⟩⟩,
    vertices := [⟨0, 0, 2⟩, ⟨4, 6, 8⟩], children := ["E"] }

/-- The child empty marker of `wMesh`. -/
def wEmpty : Obj :=
  { name := "E", type := .EMPTY, matrix_world := ⟨Mat3.id, ⟨5, 6, 7⟩⟩,
    vertices := [], children := [] }

/-- A selected curve: neither a mesh nor an empty. -/
def wCurve : Obj :=
  { name := "C", type := .OTHER, matrix_world := ⟨Mat3.id, ⟨1, 2, 3⟩⟩,
    vertices := [], children := [] }

/-- Scene with a mesh (plus its marker child) selected, origin-at-bottom
policy active. -/
def wSceneBottom : State :=
  { objects := [wMesh, wEmpty], cursor := ⟨9, 9, 9⟩, selected := ["M", "E"],
    active := some "M", props := { wProps with origin_at_bottom := true } }

/-- Scene whose selection holds only the empty marker. -/
def wSceneOnlyEmpty : State :=
  { objects := [wEmpty], cursor := vzero, selected := ["E"], active := some "E",
    props := wProps }

/-- Scene with a single selected curve at a non-zero location. -/
def wSceneCurve : State :=
  { objects := [wCurve], cursor := vzero, selected := ["C"], active := some "C",
    props := wProps }

/-- Scene exercising the custom-origin policy with a matching marker. -/
def wSceneCustom : State :=
  { objects := [wMesh, wEmpty], cursor := vzero, selected := ["M"], active := some "M",
    props := { wProps with custom_origin := true } }

/-- Custom-origin scene on which `scene.selected_empty` was never
defined. -/
def wSceneCustomNoAttr : State :=
  { objects := [wMesh, wEmpty], cursor := vzero, selected := ["M"], active := some "M",
    props := { wProps with custom_origin := true, selected_empty := none } }

/-- As `wSceneCustomNoAttr`, but the selected mesh has no children. -/
def wSceneCustomNoChild : State :=
  { objects := [{ wMesh with children := [] }], cursor := vzero, selected := ["M"],
    active := some "M",
    props := { wProps with custom_origin := true, selected_empty := none } }

/-- Non-batch OBJ export scene (exercising the misspelled keyword). -/
def wSceneObjSingle : State :=
  { objects := [{ wMesh with children := [] }], cursor := vzero, selected := ["M"],
    active := some "M", props := { wProps with export_types := .OBJ, set_file_name := "out" } }

/-- Batch export scene with two meshes. -/
def wSceneBatch : State :=
  { objects := [{ wMesh with children := [] }, { wMesh with name := "N 2", children := [] }],
    cursor := vzero, selected := ["M", "N 2"], active := some "M",
    props := { wProps with batch_export := true } }

/-- The mesh `wMesh` after `transform_apply` has baked its
rotation/scale into the vertex data. -/
def wMeshApplied : Obj :=
  { name := "M", type := .MESH, matrix_world := ⟨Mat3.id, ⟨1, 1, 1⟩⟩,
    vertices := [⟨0, 0, 2⟩, ⟨8, 18, 8⟩], children := ["E"] }

/-- The per-object effect of the cursor-anchored origin-set: world
translation becomes `c`, vertex data shifts to keep world geometry. -/
def originSetFn (c : Vec3) : Obj → Obj := fun o =>
  { o with matrix_world := ⟨o.matrix_world.lin, c⟩,
           vertices := o.vertices.map
             (fun v => v + (Mat3.inv3 o.matrix_world.lin).mulVec (o.matrix_world.tr - c)) }

/-! ### Derived lemmas -/

theorem Vec3.add_vzero (v : Vec3) : v + vzero = v := by
  cases v with
  | mk a b c => show Vec3.mk (a + 0) (b + 0) (c + 0) = Vec3.mk a b c; simp

theorem Vec3.sub_self_eq (v : Vec3) : v - v = vzero := by
  cases v with
  | mk a b c => show Vec3.mk (a - a) (b - b) (c - c) = vzero; simp [vzero]

theorem Mat3.mulVec_vzero (A : Mat3) : A.mulVec vzero = vzero := by
  simp [Mat3.mulVec, vzero]

theorem Vec3.sub_x (v c : Vec3) : (v - c).x = v.x - c.x := rfl

theorem Vec3.sub_y (v c : Vec3) : (v - c).y = v.y - c.y := rfl

theorem Vec3.sub_z (v c : Vec3) : (v - c).z = v.z - c.z := rfl

theorem State.find_of_name {s : State} {n : String} {o : Obj} (h : s.find n = some o) :
    o.name = n := by
  have := List.find?_some h
  exact of_decide_eq_true this

theorem State.find_map_presName (l : List Obj) (g : Obj → Obj)
    (hg : ∀ o, (g o).name = o.name) (n : String) :
    (l.map g).find? (fun o => o.name = n) = (l.find? (fun o => o.name = n)).map g := by
  induction l with
  | nil => rfl
  | cons o r ih =>
    by_cases h : o.name = n
    · simp [List.find?, hg, h]
    · simp [List.find?, hg, h, ih]

theorem State.find_update (s : State) (m : String) (f : Obj → Obj)
    (hf : ∀ o, (f o).name = o.name) (n : String) :
    (s.update m f).find n = (s.find n).map (fun o => if o.name = m then f o else o) := by
  unfold State.update State.find
  exact State.find_map_presName s.objects _ (fun o => by by_cases h : o.name = m <;> simp [h, hf]) n

theorem State.find_update_self {s : State} {n : String} {o : Obj} (f : Obj → Obj)
    (hf : ∀ o, (f o).name = o.name) (h : s.find n = some o) :
    (s.update n f).find n = some (f o) := by
  rw [State.find_update s n f hf n, h]
  simp [State.find_of_name h]

theorem State.find_update_ne {s : State} {m n : String} (f : Obj → Obj)
    (hf : ∀ o, (f o).name = o.name) (hne : m ≠ n) :
    (s.update m f).find n = s.find n := by
  rw [State.find_update s m f hf n]
  cases h : s.find n with
  | none => rfl
  | some o => simp [State.find_of_name h, hne.symm]

/-- The "shape" of an object that no phase of the export sequence
changes: name, type, children, and vertex count. -/
def sameShape (o o' : Obj) : Prop :=
  o'.name = o.name ∧ o'.type = o.type ∧ o'.children = o.children ∧
    o'.vertices.length = o.vertices.length

/-- Object lists aligned by shape. -/
def ShapeEq (s t : State) : Prop := List.Forall₂ sameShape s.objects t.objects

theorem sameShape_refl (o : Obj) : sameShape o o := ⟨rfl, rfl, rfl, rfl⟩

theorem sameShape_trans {a b c : Obj} (h1 : sameShape a b) (h2 : sameShape b c) :
    sameShape a c :=
  ⟨h2.1.trans h1.1, h2.2.1.trans h1.2.1, h2.2.2.1.trans h1.2.2.1, h2.2.2.2.trans h1.2.2.2⟩

theorem shapeEq_refl (s : State) : ShapeEq s s := by
  unfold ShapeEq
  induction s.objects with
  | nil => exact List.Forall₂.nil
  | cons o r ih => exact List.Forall₂.cons (sameShape_refl o) ih

theorem forall₂_shape_trans :
    ∀ {l1 l2 l3 : List Obj}, List.Forall₂ sameShape l1 l2 → List.Forall₂ sameShape l2 l3 →
      List.Forall₂ sameShape l1 l3 := by
  intro l1 l2 l3 h1
  induction h1 generalizing l3 with
  | nil => intro h2; cases h2; exact List.Forall₂.nil
  | cons hab h ih =>
    intro h2
    cases h2 with
    | cons hbc h' => exact List.Forall₂.cons (sameShape_trans hab hbc) (ih h')

theorem shapeEq_trans {s t u : State} (h1 : ShapeEq s t) (h2 : ShapeEq t u) : ShapeEq s u :=
  forall₂_shape_trans h1 h2

theorem shapeEq_of_objects_eq {s t : State} (h : t.objects = s.objects) : ShapeEq s t := by
  unfold ShapeEq
  rw [h]
  exact shapeEq_refl s

theorem forall₂_shape_map (l : List Obj) (g : Obj → Obj) (hg : ∀ o ∈ l, sameShape o (g o)) :
    List.Forall₂ sameShape l (l.map g) := by
  induction l with
  | nil => exact List.Forall₂.nil
  | cons o r ih =>
    exact List.Forall₂.cons (hg o (List.mem_cons_self o r))
      (ih (fun o ho => hg o (List.mem_cons_of_mem _ ho)))

theorem shapeEq_update (s : State) (n : String) (f : Obj → Obj)
    (hf : ∀ o, sameShape o (f o)) : ShapeEq s (s.update n f) := by
  unfold ShapeEq State.update
  exact forall₂_shape_map s.objects _
    (fun o _ => by by_cases h : o.name = n <;> simp [h, hf, sameShape_refl])

theorem forall₂_shape_find {l l' : List Obj} (h : List.Forall₂ sameShape l l') (n : String) :
    (l.find? (fun o => o.name = n) = none ∧ l'.find? (fun o => o.name = n) = none) ∨
      ∃ o o', l.find? (fun o => o.name = n) = some o ∧
        l'.find? (fun o => o.name = n) = some o' ∧ sameShape o o' := by
  induction h with
  | nil => exact Or.inl ⟨rfl, rfl⟩
  | cons hoo h ih =>
    rename_i o o' r r'
    by_cases hn : o.name = n
    · refine Or.inr ⟨o, o', ?_, ?_, hoo⟩
      · simp [List.find?, hn]
      · simp [List.find?, hoo.1.trans hn]
    · have hn' : o'.name ≠ n := fun hc => hn (hoo.1 ▸ hc)
      simpa [List.find?, hn, hn'] using ih

theorem shapeEq_find {s t : State} (h : ShapeEq s t) (n : String) :
    (s.find n = none ∧ t.find n = none) ∨
      ∃ o o', s.find n = some o ∧ t.find n = some o' ∧ sameShape o o' :=
  forall₂_shape_find h n

theorem shapeEq_find_some {s t : State} {n : String} {o : Obj} (h : ShapeEq s t)
    (hf : s.find n = some o) : ∃ o', t.find n = some o' ∧ sameShape o o' := by
  rcases shapeEq_find h n with ⟨h1, _⟩ | ⟨a, a', h1, h2, h3⟩
  · rw [hf] at h1; cases h1
  · rw [hf] at h1
    cases h1
    exact ⟨a', h2, h3⟩

theorem shapeEq_foldl {α : Type} (step : State → α → State)
    (h : ∀ st a, ShapeEq st (step st a)) : ∀ (l : List α) (st : State),
    ShapeEq st (l.foldl step st) := by
  intro l
  induction l with
  | nil => intro st; exact shapeEq_refl st
  | cons a r ih => intro st; exact shapeEq_trans (h st a) (ih (step st a))

theorem foldl_find_pres {α : Type} (step : State → α → State) (n : String) :
    ∀ (l : List α) (st : State), (∀ st1 a, a ∈ l → (step st1 a).find n = st1.find n) →
    (l.foldl step st).find n = st.find n := by
  intro l
  induction l with
  | nil => intro st _; rfl
  | cons a r ih =>
    intro st h
    rw [List.foldl_cons, ih (step st a) (fun st1 b hb => h st1 b (List.mem_cons_of_mem _ hb)),
      h st a (List.mem_cons_self a r)]

theorem foldl_props {α : Type} (step : State → α → State)
    (h : ∀ st a, (step st a).props = st.props) : ∀ (l : List α) (st : State),
    (l.foldl step st).props = st.props := by
  intro l
  induction l with
  | nil => intro st; rfl
  | cons a r ih => intro st; rw [List.foldl_cons, ih (step st a), h st a]

theorem foldl_active {α : Type} (step : State → α → State)
    (h : ∀ st a, (step st a).active = st.active) : ∀ (l : List α) (st : State),
    (l.foldl step st).active = st.active := by
  intro l
  induction l with
  | nil => intro st; rfl
  | cons a r ih => intro st; rw [List.foldl_cons, ih (step st a), h st a]

/-! ### Per-phase invariants: shape, props, and scalar fields -/

theorem foldl_cursor {α : Type} (step : State → α → State)
    (h : ∀ st a, (step st a).cursor = st.cursor) : ∀ (l : List α) (st : State),
    (l.foldl step st).cursor = st.cursor := by
  intro l
  induction l with
  | nil => intro st; rfl
  | cons a r ih => intro st; rw [List.foldl_cons, ih (step st a), h st a]

theorem foldl_selected {α : Type} (step : State → α → State)
    (h : ∀ st a, (step st a).selected = st.selected) : ∀ (l : List α) (st : State),
    (l.foldl step st).selected = st.selected := by
  intro l
  induction l with
  | nil => intro st; rfl
  | cons a r ih => intro st; rw [List.foldl_cons, ih (step st a), h st a]

theorem transform_apply_shape (s : State) : ShapeEq s (transform_apply_rot_scale s) := by
  unfold transform_apply_rot_scale
  refine shapeEq_foldl _ (fun st n => ?_) s.selected s
  exact shapeEq_update st n _ (fun o => ⟨rfl, rfl, rfl, by simp⟩)

theorem transform_apply_props (s : State) : (transform_apply_rot_scale s).props = s.props := by
  unfold transform_apply_rot_scale
  refine foldl_props _ (fun st a => ?_) s.selected s
  rfl

theorem transform_apply_find (s : State) (n : String) (hn : n ∉ s.selected) :
    (transform_apply_rot_scale s).find n = s.find n := by
  unfold transform_apply_rot_scale
  refine foldl_find_pres _ n s.selected s (fun st1 a ha => ?_)
  exact State.find_update_ne _ (fun _ => rfl) (fun hc => hn (hc ▸ ha))

theorem origin_set_shape (s : State) : ShapeEq s (origin_set_cursor s) := by
  unfold origin_set_cursor
  refine shapeEq_foldl _ (fun st n => ?_) s.selected s
  exact shapeEq_update st n _ (fun o => ⟨rfl, rfl, rfl, by simp⟩)

theorem origin_set_shape_from (s t : State) (h : t.objects = s.objects) :
    ShapeEq s (origin_set_cursor t) :=
  shapeEq_trans (shapeEq_of_objects_eq h) (origin_set_shape t)

theorem origin_set_props (s : State) : (origin_set_cursor s).props = s.props := by
  unfold origin_set_cursor
  refine foldl_props _ (fun st a => ?_) s.selected s
  rfl

theorem origin_set_cursor_eq (s : State) : (origin_set_cursor s).cursor = s.cursor := by
  unfold origin_set_cursor
  refine foldl_cursor _ (fun st a => ?_) s.selected s
  rfl

theorem origin_set_selected (s : State) : (origin_set_cursor s).selected = s.selected := by
  unfold origin_set_cursor
  refine foldl_selected _ (fun st a => ?_) s.selected s
  rfl

theorem origin_set_active (s : State) : (origin_set_cursor s).active = s.active := by
  unfold origin_set_cursor
  refine foldl_active _ (fun st a => ?_) s.selected s
  rfl

theorem set_origin_at_bottom_shape (n : String) (s : State) :
    ShapeEq s (set_origin_at_bottom n s).1 := by
  simp only [set_origin_at_bottom]
  cases h : (transform_apply_rot_scale s).find n with
  | none => exact transform_apply_shape s
  | some obj =>
    exact shapeEq_trans (transform_apply_shape s)
      (shapeEq_update _ n _ (fun o => ⟨rfl, rfl, rfl, by simp⟩))

theorem set_origin_at_bottom_props (n : String) (s : State) :
    (set_origin_at_bottom n s).1.props = s.props := by
  simp only [set_origin_at_bottom]
  cases h : (transform_apply_rot_scale s).find n with
  | none => exact transform_apply_props s
  | some obj => exact transform_apply_props s

theorem bottomFold_shape (sel : List String) (s : State) : ShapeEq s (bottomFold sel s) := by
  unfold bottomFold
  refine shapeEq_foldl _ (fun st n => ?_) sel s
  exact set_origin_at_bottom_shape n st

theorem bottomFold_props (sel : List String) (s : State) : (bottomFold sel s).props = s.props := by
  unfold bottomFold
  refine foldl_props _ (fun st n => ?_) sel s
  exact set_origin_at_bottom_props n st

theorem cursorOriginLoop_shape (sel : List String) (s : State) :
    ShapeEq s (cursorOriginLoop sel s) := by
  unfold cursorOriginLoop
  refine shapeEq_foldl _ (fun st n => ?_) sel s
  cases h : st.find n with
  | none => simp only [h]; exact shapeEq_refl st
  | some o =>
    simp only [h]
    exact origin_set_shape_from st _ rfl

theorem cursorOriginLoop_props (sel : List String) (s : State) :
    (cursorOriginLoop sel s).props = s.props := by
  unfold cursorOriginLoop
  refine foldl_props _ (fun st n => ?_) sel s
  cases h : st.find n with
  | none => simp only [h]
  | some o =>
    simp only [h]
    exact origin_set_props _

theorem processObj_shape (n : String) (s : State) : ShapeEq s (processObj n s).state := by
  unfold processObj
  cases h : s.find n with
  | none => exact shapeEq_refl s
  | some obj =>
    by_cases ht : obj.type = ObjType.MESH
    · simp only [ht, if_true]
      cases hf : findCustomEmpty s obj.children with
      | error e => exact shapeEq_refl s
      | ok r =>
        cases r with
        | none => exact shapeEq_refl s
        | some ce =>
          simp only [PRes.state]
          exact origin_set_shape_from s _ rfl
    · simp only [ht, if_false]
      exact shapeEq_refl s

theorem processObj_props (n : String) (s : State) : (processObj n s).state.props = s.props := by
  unfold processObj
  cases h : s.find n with
  | none => rfl
  | some obj =>
    by_cases ht : obj.type = ObjType.MESH
    · simp only [ht, if_true]
      cases hf : findCustomEmpty s obj.children with
      | error e => rfl
      | ok r =>
        cases r with
        | none => rfl
        | some ce =>
          simp only [PRes.state]
          exact origin_set_props _
    · simp only [ht, if_false]; rfl

theorem processLoop_shape : ∀ (l : List String) (s : State), ShapeEq s (processLoop l s).state := by
  intro l
  induction l with
  | nil => intro s; exact shapeEq_refl s
  | cons n r ih =>
    intro s
    unfold processLoop
    cases h : processObj n s with
    | ok s1 =>
      have hs := processObj_shape n s
      rw [h] at hs
      exact shapeEq_trans hs (ih s1)
    | err e s1 =>
      have hs := processObj_shape n s
      rw [h] at hs
      exact hs

theorem processLoop_props : ∀ (l : List String) (s : State),
    (processLoop l s).state.props = s.props := by
  intro l
  induction l with
  | nil => intro s; rfl
  | cons n r ih =>
    intro s
    unfold processLoop
    cases h : processObj n s with
    | ok s1 =>
      have hp := processObj_props n s
      rw [h] at hp
      simp only [PRes.state] at hp
      rw [ih s1, hp]
    | err e s1 =>
      have hp := processObj_props n s
      rw [h] at hp
      exact hp

theorem set_origin_to_custom_shape (sel : List String) (s : State) :
    ShapeEq s (set_origin_to_custom sel s).state := by
  unfold set_origin_to_custom
  cases h : processLoop sel s with
  | ok s1 =>
    have hs := processLoop_shape sel s
    rw [h] at hs
    exact shapeEq_trans hs (processLoop_shape sel s1)
  | err e s1 =>
    have hs := processLoop_shape sel s
    rw [h] at hs
    exact hs

theorem set_origin_to_custom_props (sel : List String) (s : State) :
    (set_origin_to_custom sel s).state.props = s.props := by
  unfold set_origin_to_custom
  cases h : processLoop sel s with
  | ok s1 =>
    have hp := processLoop_props sel s
    rw [h] at hp
    simp only [PRes.state] at hp
    rw [processLoop_props sel s1, hp]
  | err e s1 =>
    have hp := processLoop_props sel s
    rw [h] at hp
    exact hp

theorem originPhase_shape (sel : List String) (s : State) :
    ShapeEq s (originPhase sel s).state := by
  unfold originPhase
  by_cases h1 : s.props.custom_origin
  · simp only [h1, if_true]
    exact set_origin_to_custom_shape sel s
  · by_cases h2 : s.props.origin_at_bottom
    · simp only [h1, h2, if_false, if_true]
      exact bottomFold_shape sel s
    · simp only [h1, h2, if_false]
      exact cursorOriginLoop_shape sel s

theorem originPhase_props (sel : List String) (s : State) :
    (originPhase sel s).state.props = s.props := by
  unfold originPhase
  by_cases h1 : s.props.custom_origin
  · simp only [h1, if_true]
    exact set_origin_to_custom_props sel s
  · by_cases h2 : s.props.origin_at_bottom
    · simp only [h1, h2, if_false, if_true]
      exact bottomFold_props sel s
    · simp only [h1, h2, if_false]
      exact cursorOriginLoop_props sel s

theorem zeroLocations_shape (sel : List String) (s : State) : ShapeEq s (zeroLocations sel s) := by
  unfold zeroLocations
  refine shapeEq_foldl _ (fun st n => ?_) sel s
  exact shapeEq_update st n _ (fun o => ⟨rfl, rfl, rfl, rfl⟩)

theorem zeroLocations_props (sel : List String) (s : State) :
    (zeroLocations sel s).props = s.props := by
  unfold zeroLocations
  refine foldl_props _ (fun st a => ?_) sel s
  rfl

theorem zeroLocations_active (sel : List String) (s : State) :
    (zeroLocations sel s).active = s.active := by
  unfold zeroLocations
  refine foldl_active _ (fun st a => ?_) sel s
  rfl

theorem export_objects_objects (fmt : ExpFormat) (dir : String) (mods tria : Bool) (cols : VCol)
    (orc : Bool) : ∀ (l : List String) (s : State) (evs : List Effect),
    (export_objects fmt dir mods tria cols orc l s evs).state.objects = s.objects := by
  intro l
  induction l with
  | nil => intro s evs; rfl
  | cons n r ih =>
    intro s evs
    cases orc with
    | true => cases fmt <;> simp [export_objects, callFbx, callObjExport]
    | false => cases fmt <;> simp [export_objects, callFbx, callObjExport, ih]

theorem singleExport_objects (sel : List String) (fmt : ExpFormat) (dir : String)
    (mods tria : Bool) (cols : VCol) (orc : Bool) (s : State) (evs : List Effect) :
    (singleExport sel fmt dir mods tria cols orc s evs).state.objects = s.objects := by
  unfold singleExport
  by_cases h : s.props.set_file_name = ""
  · simp only [h, if_true]
    cases s.active with
    | none => simp
    | some an =>
      cases orc <;> cases fmt <;> simp [callFbx, callObjExport]
  · simp only [h, if_false]
    cases orc <;> cases fmt <;> simp [callFbx, callObjExport]

theorem tryBody_shape (orc : Bool) (sel : List String) (s : State) :
    ShapeEq s (tryBody orc sel s).state := by
  unfold tryBody
  cases h : originPhase sel s with
  | err e s1 =>
    have hs := originPhase_shape sel s
    rw [h] at hs
    exact hs
  | ok s1 =>
    have h1 : ShapeEq s (zeroLocations sel s1) := by
      have hs := originPhase_shape sel s
      rw [h] at hs
      exact shapeEq_trans hs (zeroLocations_shape sel s1)
    by_cases hb : (zeroLocations sel s1).props.batch_export = true
    · simp only [hb, if_true]
      exact shapeEq_trans h1
        (shapeEq_of_objects_eq (export_objects_objects _ _ _ _ _ _ sel _ _))
    · simp only [hb, if_false]
      exact shapeEq_trans h1
        (shapeEq_of_objects_eq (singleExport_objects sel _ _ _ _ _ _ _ _))

/-! ### Snapshot and restore lemmas -/

theorem alookup_mem {β : Type} {n : String} {b : β} :
    ∀ {l : List (String × β)}, alookup n l = some b → (n, b) ∈ l := by
  intro l
  induction l with
  | nil => intro h; cases h
  | cons p r ih =>
    intro h
    unfold alookup at h
    by_cases hp : p.1 = n
    · simp only [hp, if_true] at h
      cases h
      have he : (n, p.2) = p := by rw [← hp]
      rw [he]
      exact List.mem_cons_self p r
    · simp only [hp, if_false] at h
      exact List.mem_cons_of_mem _ (ih h)

theorem find_unique' : ∀ {l : List Obj}, (l.map Obj.name).Nodup →
    ∀ {n : String} {o ob : Obj}, l.find? (fun x => x.name = n) = some o → ob ∈ l →
    ob.name = n → ob = o := by
  intro l
  induction l with
  | nil => intro _ n o ob h; cases h
  | cons a r ih =>
    intro hN n o ob hfind hmem hname
    rw [List.map_cons, List.nodup_cons] at hN
    by_cases ha : a.name = n
    · have hfa : (a :: r).find? (fun x => x.name = n) = some a := by
        simp [List.find?, ha]
      rw [hfa] at hfind
      cases hfind
      cases List.mem_cons.1 hmem with
      | inl h => rw [h]
      | inr h =>
        exfalso
        have hob : ob.name ∈ r.map Obj.name := List.mem_map_of_mem Obj.name h
        rw [hname.trans ha.symm] at hob
        exact hN.1 hob
    · have hfind' : r.find? (fun x => x.name = n) = some o := by
        simpa [List.find?, ha] using hfind
      cases List.mem_cons.1 hmem with
      | inl h => exact absurd (h ▸ hname) ha
      | inr h => exact ih hN.2 hfind' h hname

theorem State.find_unique {s : State} (hN : (s.objects.map Obj.name).Nodup) {n : String}
    {o ob : Obj} (h : s.find n = some o) (hob : ob ∈ s.objects) (hname : ob.name = n) :
    ob = o :=
  find_unique' hN h hob hname

theorem State.update_id (s : State) (n : String) (f : Obj → Obj)
    (h : ∀ ob ∈ s.objects, ob.name = n → f ob = ob) : s.update n f = s := by
  unfold State.update
  have : s.objects.map (fun o => if o.name = n then f o else o) = s.objects := by
    rw [List.map_congr_left (g := id) (fun o ho => by by_cases hn : o.name = n <;> simp [hn, h o ho])]
    exact List.map_id s.objects
  rw [this]

theorem mem_filteredSelection {s : State} {n : String} (h : n ∈ filteredSelection s) :
    n ∈ s.selected ∧ ∃ o, s.find n = some o ∧ o.type ≠ ObjType.EMPTY := by
  unfold filteredSelection at h
  have h2 := List.mem_filter.1 h
  refine ⟨h2.1, ?_⟩
  rcases h3 : s.find n with _ | o
  · rw [h3] at h2; cases h2.2
  · rw [h3] at h2
    exact ⟨o, rfl, of_decide_eq_true h2.2⟩

theorem snapMats_lookup {s : State} {n : String} {o : Obj} (h : s.find n = some o)
    (ht : o.type = ObjType.MESH) : ∀ {sel : List String}, n ∈ sel →
    alookup n (snapMats s sel) = some o.matrix_world := by
  intro sel
  induction sel with
  | nil => intro hm; cases hm
  | cons m r ih =>
    intro hm
    by_cases hmn : m = n
    · subst hmn
      simp [snapMats, h, ht, alookup]
    · have hr : n ∈ r := (List.mem_cons.1 hm).resolve_left (fun hc => hmn hc.symm)
      unfold snapMats
      cases hf : s.find m with
      | none => exact ih hr
      | some om =>
        by_cases htm : om.type = ObjType.MESH
        · simp only [htm, if_true]
          unfold alookup
          simp only [hmn, if_false]
          exact ih hr
        · simp only [htm, if_false]
          exact ih hr

theorem snapVerts_lookup {s : State} {n : String} {o : Obj} (h : s.find n = some o)
    (ht : o.type = ObjType.MESH) : ∀ {sel : List String}, n ∈ sel →
    alookup n (snapVerts s sel) = some o.vertices := by
  intro sel
  induction sel with
  | nil => intro hm; cases hm
  | cons m r ih =>
    intro hm
    by_cases hmn : m = n
    · subst hmn
      simp [snapVerts, h, ht, alookup]
    · have hr : n ∈ r := (List.mem_cons.1 hm).resolve_left (fun hc => hmn hc.symm)
      unfold snapVerts
      cases hf : s.find m with
      | none => exact ih hr
      | some om =>
        by_cases htm : om.type = ObjType.MESH
        · simp only [htm, if_true]
          unfold alookup
          simp only [hmn, if_false]
          exact ih hr
        · simp only [htm, if_false]
          exact ih hr

theorem snapMats_mem {s : State} : ∀ {sel : List String} {p : String × Aff},
    p ∈ snapMats s sel →
    p.1 ∈ sel ∧ ∃ o, s.find p.1 = some o ∧ o.type = ObjType.MESH ∧ p.2 = o.matrix_world := by
  intro sel
  induction sel with
  | nil => intro p h; cases h
  | cons m r ih =>
    intro p h
    unfold snapMats at h
    cases hf : s.find m with
    | none =>
      rw [hf] at h
      have := ih h
      exact ⟨List.mem_cons_of_mem _ this.1, this.2⟩
    | some om =>
      rw [hf] at h
      by_cases htm : om.type = ObjType.MESH
      · simp only [htm, if_true] at h
        cases List.mem_cons.1 h with
        | inl he =>
          subst he
          exact ⟨List.mem_cons_self _ _, om, hf, htm, rfl⟩
        | inr he =>
          have := ih he
          exact ⟨List.mem_cons_of_mem _ this.1, this.2⟩
      · simp only [htm, if_false] at h
        have := ih h
        exact ⟨List.mem_cons_of_mem _ this.1, this.2⟩

theorem snapVerts_mem {s : State} : ∀ {sel : List String} {p : String × List Vec3},
    p ∈ snapVerts s sel →
    p.1 ∈ sel ∧ ∃ o, s.find p.1 = some o ∧ o.type = ObjType.MESH ∧ p.2 = o.vertices := by
  intro sel
  induction sel with
  | nil => intro p h; cases h
  | cons m r ih =>
    intro p h
    unfold snapVerts at h
    cases hf : s.find m with
    | none =>
      rw [hf] at h
      have := ih h
      exact ⟨List.mem_cons_of_mem _ this.1, this.2⟩
    | some om =>
      rw [hf] at h
      by_cases htm : om.type = ObjType.MESH
      · simp only [htm, if_true] at h
        cases List.mem_cons.1 h with
        | inl he =>
          subst he
          exact ⟨List.mem_cons_self _ _, om, hf, htm, rfl⟩
        | inr he =>
          have := ih he
          exact ⟨List.mem_cons_of_mem _ this.1, this.2⟩
      · simp only [htm, if_false] at h
        have := ih h
        exact ⟨List.mem_cons_of_mem _ this.1, this.2⟩

theorem snapChildEmpties_mem {s : State} {cs : List String} {p : String × Aff}
    (h : p ∈ snapChildEmpties s cs) :
    ∃ ch, s.find p.1 = some ch ∧ ch.type = ObjType.EMPTY ∧ p.2 = ch.matrix_world := by
  unfold snapChildEmpties at h
  rcases List.mem_filterMap.1 h with ⟨c, _, hc⟩
  rcases hf : s.find c with _ | ch
  · rw [hf] at hc; cases hc
  · rw [hf] at hc
    by_cases ht : ch.type = ObjType.EMPTY
    · simp only [ht, if_true] at hc
      cases hc
      exact ⟨ch, (State.find_of_name hf) ▸ hf, ht, rfl⟩
    · simp only [ht, if_false] at hc
      cases hc

theorem snapEmpties_mem {s : State} : ∀ {sel : List String} {p : String × Aff},
    p ∈ snapEmpties s sel →
    ∃ ch, s.find p.1 = some ch ∧ ch.type = ObjType.EMPTY ∧ p.2 = ch.matrix_world := by
  intro sel
  induction sel with
  | nil => intro p h; cases h
  | cons m r ih =>
    intro p h
    unfold snapEmpties at h
    cases hf : s.find m with
    | none =>
      rw [hf] at h
      exact ih h
    | some om =>
      rw [hf] at h
      cases List.mem_append.1 h with
      | inl he => exact snapChildEmpties_mem he
      | inr he => exact ih he

theorem restoreVerts_self : ∀ (c w : List Vec3), c.length = w.length → restoreVerts c w = w := by
  intro c
  induction c with
  | nil =>
    intro w h
    cases w with
    | nil => rfl
    | cons a r => cases h
  | cons v c ih =>
    intro w h
    cases w with
    | nil => cases h
    | cons a r =>
      unfold restoreVerts
      rw [ih r (Nat.succ_injective h)]

theorem restoreVerts_length : ∀ (c w : List Vec3), (restoreVerts c w).length = c.length := by
  intro c
  induction c with
  | nil => intro w; cases w <;> rfl
  | cons v c ih =>
    intro w
    cases w with
    | nil => simp [restoreVerts, ih]
    | cons a r => simp [restoreVerts, ih]

theorem restoreStep_find_ne (mats : List (String × Aff)) (verts : List (String × List Vec3))
    (st : State) {m n : String} (hmn : m ≠ n) :
    (restoreStep mats verts st m).find n = st.find n := by
  unfold restoreStep
  cases hf : st.find m with
  | none => rfl
  | some o =>
    by_cases ht : o.type = ObjType.MESH
    · simp only [ht, if_true]
      cases hv : alookup m verts with
      | none =>
        cases hm : alookup m mats with
        | none => rfl
        | some mm => exact State.find_update_ne _ (fun _ => rfl) hmn
      | some vs =>
        cases hm : alookup m mats with
        | none => exact State.find_update_ne _ (fun _ => rfl) hmn
        | some mm =>
          exact (State.find_update_ne
              (fun ob => { ob with matrix_world := mm }) (fun _ => rfl) hmn).trans
            (State.find_update_ne
              (fun ob => { ob with vertices := restoreVerts ob.vertices vs })
              (fun _ => rfl) hmn)
    · simp only [ht, if_false]
      cases hm : alookup m mats with
      | none => rfl
      | some mm => exact State.find_update_ne _ (fun _ => rfl) hmn

theorem restoreStep_shape (mats : List (String × Aff)) (verts : List (String × List Vec3))
    (st : State) (m : String) : ShapeEq st (restoreStep mats verts st m) := by
  unfold restoreStep
  cases hf : st.find m with
  | none => exact shapeEq_refl st
  | some o =>
    by_cases ht : o.type = ObjType.MESH
    · simp only [ht, if_true]
      cases hv : alookup m verts with
      | none =>
        cases hm : alookup m mats with
        | none => exact shapeEq_refl st
        | some mm =>
          exact shapeEq_update st m (fun ob => { ob with matrix_world := mm })
            (fun ob => ⟨rfl, rfl, rfl, rfl⟩)
      | some vs =>
        cases hm : alookup m mats with
        | none =>
          exact shapeEq_update st m
            (fun ob => { ob with vertices := restoreVerts ob.vertices vs })
            (fun ob => ⟨rfl, rfl, rfl, restoreVerts_length _ _⟩)
        | some mm =>
          exact shapeEq_trans
            (shapeEq_update st m
              (fun ob => { ob with vertices := restoreVerts ob.vertices vs })
              (fun ob => ⟨rfl, rfl, rfl, restoreVerts_length _ _⟩))
            (shapeEq_update _ m (fun ob => { ob with matrix_world := mm })
              (fun ob => ⟨rfl, rfl, rfl, rfl⟩))
    · simp only [ht, if_false]
      cases hm : alookup m mats with
      | none => exact shapeEq_refl st
      | some mm =>
        exact shapeEq_update st m (fun ob => { ob with matrix_world := mm })
          (fun ob => ⟨rfl, rfl, rfl, rfl⟩)

theorem restoreEmptyStep_find_ne (st : State) {p : String × Aff} {n : String}
    (hpn : p.1 ≠ n) : (restoreEmptyStep st p).find n = st.find n := by
  unfold restoreEmptyStep
  cases hf : st.find p.1 with
  | none => rfl
  | some o => exact State.find_update_ne _ (fun _ => rfl) hpn

theorem meshFold_find (mats : List (String × Aff)) (verts : List (String × List Vec3))
    {s : State} {n : String} {o : Obj} (h : s.find n = some o) (ht : o.type = ObjType.MESH)
    (hvl : alookup n verts = some o.vertices) (hml : alookup n mats = some o.matrix_world) :
    ∀ (l : List String) (st : State), l.Nodup → n ∈ l → ShapeEq s st →
    ∃ o', (l.foldl (restoreStep mats verts) st).find n = some o' ∧
      o'.matrix_world = o.matrix_world ∧ o'.vertices = o.vertices := by
  intro l
  induction l with
  | nil => intro st _ hm; cases hm
  | cons m r ih =>
    intro st hnd hm hsh
    rw [List.foldl_cons]
    by_cases hmn : m = n
    · subst hmn
      have hnr : m ∉ r := (List.nodup_cons.1 hnd).1
      rcases shapeEq_find_some hsh h with ⟨ot, hot, hshot⟩
      have htot : ot.type = ObjType.MESH := hshot.2.1.trans ht
      have hlen : ot.vertices.length = o.vertices.length := hshot.2.2.2
      have hred : restoreStep mats verts st m =
          (st.update m (fun ob => { ob with vertices := restoreVerts ob.vertices o.vertices })).update
            m (fun ob => { ob with matrix_world := o.matrix_world }) := by
        simp [restoreStep, hot, htot, hvl, hml]
      have h1 : (st.update m
          (fun ob => { ob with vertices := restoreVerts ob.vertices o.vertices })).find m =
          some { ot with vertices := restoreVerts ot.vertices o.vertices } :=
        State.find_update_self _ (fun _ => rfl) hot
      have h2 : (restoreStep mats verts st m).find m =
          some { ot with vertices := restoreVerts ot.vertices o.vertices,
                         matrix_world := o.matrix_world } := by
        rw [hred]
        exact State.find_update_self
          (fun ob => { ob with matrix_world := o.matrix_world }) (fun _ => rfl) h1
      have hpres : (r.foldl (restoreStep mats verts) (restoreStep mats verts st m)).find m =
          (restoreStep mats verts st m).find m := by
        refine foldl_find_pres _ m r _ (fun st1 a ha => ?_)
        exact restoreStep_find_ne mats verts st1 (fun hc => hnr (hc ▸ ha))
      refine ⟨_, hpres.trans h2, rfl, ?_⟩
      exact restoreVerts_self _ _ hlen
    · have hr : n ∈ r := (List.mem_cons.1 hm).resolve_left (fun hc => hmn hc.symm)
      exact ih _ (List.nodup_cons.1 hnd).2 hr
        (shapeEq_trans hsh (restoreStep_shape mats verts st m))

theorem empFold_find {n : String} {M : Aff} :
    ∀ (l : List (String × Aff)) (st : State), (∀ p ∈ l, p.1 = n → p.2 = M) →
    (n, M) ∈ l → (st.find n).isSome →
    ∃ o', (l.foldl restoreEmptyStep st).find n = some o' ∧ o'.matrix_world = M := by
  intro l
  induction l with
  | nil => intro st _ hm; cases hm
  | cons q r ih =>
    intro st hval hm hsome
    rw [List.foldl_cons]
    rcases hf : st.find n with _ | ot
    · rw [hf] at hsome; cases hsome
    by_cases hq : q.1 = n
    · have hv : q.2 = M := hval q (List.mem_cons_self q r) hq
      have hstep : (restoreEmptyStep st q).find n = some { ot with matrix_world := M } := by
        unfold restoreEmptyStep
        simp only [hq, hf]
        rw [hv]
        exact State.find_update_self _ (fun _ => rfl) hf
      by_cases hrk : ∃ p ∈ r, p.1 = n
      · rcases hrk with ⟨p, hp, hpn⟩
        have hpv : p.2 = M := hval p (List.mem_cons_of_mem _ hp) hpn
        have hpm : (n, M) ∈ r := by
          have hpe : p = (n, M) := by rw [← hpn, ← hpv]
          exact hpe ▸ hp
        refine ih _ (fun p hp hpn => hval p (List.mem_cons_of_mem _ hp) hpn) hpm ?_
        rw [hstep]
        rfl
      · push_neg at hrk
        have hpres : (r.foldl restoreEmptyStep (restoreEmptyStep st q)).find n =
            (restoreEmptyStep st q).find n := by
          refine foldl_find_pres _ n r _ (fun st1 p hp => ?_)
          exact restoreEmptyStep_find_ne st1 (hrk p hp)
        exact ⟨_, hpres.trans hstep, rfl⟩
    · have hstep : (restoreEmptyStep st q).find n = st.find n :=
        restoreEmptyStep_find_ne st hq
      have hm' : (n, M) ∈ r := by
        cases List.mem_cons.1 hm with
        | inl he =>
          exfalso
          apply hq
          rw [← he]
        | inr he => exact he
      refine ih _ (fun p hp hpn => hval p (List.mem_cons_of_mem _ hp) hpn) hm' ?_
      rw [hstep, hf]
      rfl

theorem restore_mesh_exact {s t : State} {sel : List String} (hnd : sel.Nodup)
    (hsh : ShapeEq s t) {n : String} {o : Obj} (hmem : n ∈ sel) (h : s.find n = some o)
    (ht : o.type = ObjType.MESH) :
    ∃ o', (restoreState sel (snapMats s sel) (snapVerts s sel) (snapEmpties s sel) t).find n =
      some o' ∧ o'.matrix_world = o.matrix_world ∧ o'.vertices = o.vertices := by
  obtain ⟨o', ho', hmat, hverts⟩ :=
    meshFold_find (snapMats s sel) (snapVerts s sel) h ht
      (snapVerts_lookup h ht hmem) (snapMats_lookup h ht hmem) sel t hnd hmem hsh
  have hpres : ((snapEmpties s sel).foldl restoreEmptyStep
      (sel.foldl (restoreStep (snapMats s sel) (snapVerts s sel)) t)).find n =
      (sel.foldl (restoreStep (snapMats s sel) (snapVerts s sel)) t).find n := by
    refine foldl_find_pres _ n _ _ (fun st1 p hp => ?_)
    refine restoreEmptyStep_find_ne st1 (fun hc => ?_)
    obtain ⟨ch, hch, hchT, _⟩ := snapEmpties_mem hp
    rw [hc, h] at hch
    cases hch
    rw [ht] at hchT
    cases hchT
  exact ⟨o', hpres.trans ho', hmat, hverts⟩

theorem restore_empty_exact {s t : State} {sel : List String} (hsh : ShapeEq s t)
    (hselTy : ∀ m ∈ sel, ∃ ob, s.find m = some ob ∧ ob.type ≠ ObjType.EMPTY)
    {p : String × Aff} (hp : p ∈ snapEmpties s sel) :
    ∃ o', (restoreState sel (snapMats s sel) (snapVerts s sel) (snapEmpties s sel) t).find p.1 =
      some o' ∧ o'.matrix_world = p.2 := by
  obtain ⟨ch, hch, hchT, hchM⟩ := snapEmpties_mem hp
  have hpres : (sel.foldl (restoreStep (snapMats s sel) (snapVerts s sel)) t).find p.1 =
      t.find p.1 := by
    refine foldl_find_pres _ p.1 _ _ (fun st1 m hm => ?_)
    refine restoreStep_find_ne _ _ st1 (fun hc => ?_)
    obtain ⟨ob, hob, hobT⟩ := hselTy m hm
    rw [hc, hch] at hob
    cases hob
    exact hobT hchT
  obtain ⟨cht, hcht, _⟩ := shapeEq_find_some hsh hch
  have hsome : ((sel.foldl (restoreStep (snapMats s sel) (snapVerts s sel)) t).find p.1).isSome := by
    rw [hpres, hcht]
    rfl
  have hval : ∀ q ∈ snapEmpties s sel, q.1 = p.1 → q.2 = p.2 := by
    intro q hq hq1
    obtain ⟨ch2, hch2, _, hch2M⟩ := snapEmpties_mem hq
    rw [hq1, hch] at hch2
    cases hch2
    rw [hch2M, hchM]
  have hpm : (p.1, p.2) ∈ snapEmpties s sel := hp
  obtain ⟨o', ho', hmat⟩ := empFold_find (snapEmpties s sel) _ hval hpm hsome
  exact ⟨o', ho', hmat⟩

theorem foldl_fixed {α : Type} (step : State → α → State) (s : State) :
    ∀ l : List α, (∀ a ∈ l, step s a = s) → l.foldl step s = s := by
  intro l
  induction l with
  | nil => intro _; rfl
  | cons a r ih =>
    intro h
    rw [List.foldl_cons, h a (List.mem_cons_self a r),
      ih (fun b hb => h b (List.mem_cons_of_mem _ hb))]

theorem restoreStep_id {s : State} (hN : (s.objects.map Obj.name).Nodup) (sel : List String)
    (m : String) : restoreStep (snapMats s sel) (snapVerts s sel) s m = s := by
  unfold restoreStep
  cases hf : s.find m with
  | none => rfl
  | some o =>
    by_cases ht : o.type = ObjType.MESH
    · simp only [ht, if_true]
      cases hv : alookup m (snapVerts s sel) with
      | none =>
        cases hm : alookup m (snapMats s sel) with
        | none => rfl
        | some mm =>
          obtain ⟨_, o2, ho2, _, hval⟩ := snapMats_mem (alookup_mem hm)
          rw [hf] at ho2
          cases ho2
          have hval2 : mm = o.matrix_world := hval
          show s.update m (fun ob => { ob with matrix_world := mm }) = s
          apply State.update_id
          intro ob hob hobn
          rw [State.find_unique hN hf hob hobn, hval2]
      | some vs =>
        obtain ⟨_, o2, ho2, _, hval⟩ := snapVerts_mem (alookup_mem hv)
        rw [hf] at ho2
        cases ho2
        have hval2 : vs = o.vertices := hval
        have hid1 : s.update m
            (fun ob => { ob with vertices := restoreVerts ob.vertices vs }) = s := by
          apply State.update_id
          intro ob hob hobn
          rw [State.find_unique hN hf hob hobn, hval2, restoreVerts_self _ _ rfl]
        cases hm : alookup m (snapMats s sel) with
        | none => exact hid1
        | some mm =>
          obtain ⟨_, o3, ho3, _, hval3⟩ := snapMats_mem (alookup_mem hm)
          rw [hf] at ho3
          cases ho3
          have hval4 : mm = o.matrix_world := hval3
          show (s.update m
              (fun ob => { ob with vertices := restoreVerts ob.vertices vs })).update m
              (fun ob => { ob with matrix_world := mm }) = s
          rw [hid1]
          apply State.update_id
          intro ob hob hobn
          rw [State.find_unique hN hf hob hobn, hval4]
    · simp only [ht, if_false]
      cases hm : alookup m (snapMats s sel) with
      | none => rfl
      | some mm =>
        obtain ⟨_, o2, ho2, ht2, _⟩ := snapMats_mem (alookup_mem hm)
        rw [hf] at ho2
        cases ho2
        exact absurd ht2 ht

theorem restoreEmptyStep_id {s : State} {sel : List String}
    (hN : (s.objects.map Obj.name).Nodup) {q : String × Aff} (hq : q ∈ snapEmpties s sel) :
    restoreEmptyStep s q = s := by
  unfold restoreEmptyStep
  obtain ⟨ch, hch, _, hchM⟩ := snapEmpties_mem hq
  cases hf : s.find q.1 with
  | none => rfl
  | some ob0 =>
    apply State.update_id
    intro ob hob hobn
    rw [State.find_unique hN hch hob hobn, hchM]

theorem restore_id {s : State} (hN : (s.objects.map Obj.name).Nodup) (sel : List String) :
    restoreState sel (snapMats s sel) (snapVerts s sel) (snapEmpties s sel) s =
    { s with cursor := vzero } := by
  show { (snapEmpties s sel).foldl restoreEmptyStep
      (sel.foldl (restoreStep (snapMats s sel) (snapVerts s sel)) s) with cursor := vzero } =
    { s with cursor := vzero }
  rw [foldl_fixed _ s sel (fun a _ => restoreStep_id hN sel a),
    foldl_fixed _ s (snapEmpties s sel) (fun q hq => restoreEmptyStep_id hN hq)]

/-! ### Behaviour of the custom-origin path when `selected_empty` is
undefined -/

theorem findCustomEmpty_se_none {s : State} (hse : s.props.selected_empty = none) :
    ∀ cs : List String, findCustomEmpty s cs = .ok none ∨
      findCustomEmpty s cs = .error .attributeError := by
  intro cs
  induction cs with
  | nil => exact Or.inl rfl
  | cons c rest ih =>
    unfold findCustomEmpty
    cases hf : s.find c with
    | none => exact ih
    | some child =>
      by_cases ht : child.type = ObjType.EMPTY
      · simp only [ht, if_true, hse]
        exact Or.inr trivial
      · simp only [ht, if_false]
        exact ih

theorem findCustomEmpty_se_none_err {s : State} (hse : s.props.selected_empty = none) :
    ∀ cs : List String, (∃ c ∈ cs, ∃ ch, s.find c = some ch ∧ ch.type = ObjType.EMPTY) →
    findCustomEmpty s cs = .error .attributeError := by
  intro cs
  induction cs with
  | nil => intro h; rcases h with ⟨c, hc, _⟩; cases hc
  | cons c0 rest ih =>
    intro h
    unfold findCustomEmpty
    cases hf : s.find c0 with
    | none =>
      apply ih
      rcases h with ⟨c, hc, ch, hch, hcht⟩
      cases List.mem_cons.1 hc with
      | inl he => rw [he, hf] at hch; cases hch
      | inr he => exact ⟨c, he, ch, hch, hcht⟩
    | some child =>
      by_cases ht : child.type = ObjType.EMPTY
      · simp only [ht, if_true, hse]
      · simp only [ht, if_false]
        apply ih
        rcases h with ⟨c, hc, ch, hch, hcht⟩
        cases List.mem_cons.1 hc with
        | inl he =>
          rw [he, hf] at hch
          cases hch
          exact absurd hcht ht
        | inr he => exact ⟨c, he, ch, hch, hcht⟩

theorem processObj_se_none {s : State} (hse : s.props.selected_empty = none) (n : String) :
    processObj n s = .ok s ∨ processObj n s = .err .attributeError s := by
  unfold processObj
  cases hf : s.find n with
  | none => exact Or.inl rfl
  | some obj =>
    by_cases ht : obj.type = ObjType.MESH
    · simp only [ht, if_true]
      cases findCustomEmpty_se_none hse obj.children with
      | inl h => rw [h]; exact Or.inl rfl
      | inr h => rw [h]; exact Or.inr rfl
    · simp only [ht, if_false]
      exact Or.inl trivial

theorem processObj_se_none_err {s : State} (hse : s.props.selected_empty = none) {n : String}
    {o : Obj} (hf : s.find n = some o) (ht : o.type = ObjType.MESH)
    (hch : ∃ c ∈ o.children, ∃ ch, s.find c = some ch ∧ ch.type = ObjType.EMPTY) :
    processObj n s = .err .attributeError s := by
  unfold processObj
  rw [hf]
  simp only [ht, if_true]
  rw [findCustomEmpty_se_none_err hse o.children hch]

theorem processLoop_se_none {s : State} (hse : s.props.selected_empty = none) :
    ∀ l : List String, processLoop l s = .ok s ∨ processLoop l s = .err .attributeError s := by
  intro l
  induction l with
  | nil => exact Or.inl rfl
  | cons n r ih =>
    unfold processLoop
    cases processObj_se_none hse n with
    | inl h => rw [h]; exact ih
    | inr h => rw [h]; exact Or.inr rfl

theorem processLoop_se_none_err {s : State} (hse : s.props.selected_empty = none) :
    ∀ l : List String,
    (∃ n ∈ l, ∃ o, s.find n = some o ∧ o.type = ObjType.MESH ∧
      ∃ c ∈ o.children, ∃ ch, s.find c = some ch ∧ ch.type = ObjType.EMPTY) →
    processLoop l s = .err .attributeError s := by
  intro l
  induction l with
  | nil => intro h; rcases h with ⟨n, hn, _⟩; cases hn
  | cons n0 r ih =>
    intro h
    unfold processLoop
    cases hp : processObj n0 s with
    | err e s1 =>
      cases processObj_se_none hse n0 with
      | inl h2 => rw [hp] at h2; cases h2
      | inr h2 => rw [hp] at h2; cases h2; rfl
    | ok s1 =>
      cases processObj_se_none hse n0 with
      | inr h2 => rw [hp] at h2; cases h2
      | inl h2 =>
        rw [hp] at h2
        cases h2
        apply ih
        rcases h with ⟨n, hn, o, ho, hot, hc⟩
        cases List.mem_cons.1 hn with
        | inl he =>
          exfalso
          have := processObj_se_none_err hse (he ▸ ho) hot hc
          rw [hp] at this
          cases this
        | inr he => exact ⟨n, he, o, ho, hot, hc⟩

theorem set_origin_to_custom_se_none_err {s : State} (hse : s.props.selected_empty = none)
    {sel : List String}
    (h : ∃ n ∈ sel, ∃ o, s.find n = some o ∧ o.type = ObjType.MESH ∧
      ∃ c ∈ o.children, ∃ ch, s.find c = some ch ∧ ch.type = ObjType.EMPTY) :
    set_origin_to_custom sel s = .err .attributeError s := by
  unfold set_origin_to_custom
  rw [processLoop_se_none_err hse sel h]

/-! ### Structural characterizations of `execute` -/

theorem execute_cancel {s : State} (orc : Bool) (h : filteredSelection s = []) :
    execute orc s =
      ⟨.CANCELLED, s, [.savedMainFile, .reportedError "No valid mesh objects to export."]⟩ := by
  simp [execute, h]

theorem execute_of_ne {s : State} (orc : Bool) (h : ¬filteredSelection s = []) :
    execute orc s =
      { result := match (tryBody orc (filteredSelection s) s).error with
          | none => .FINISHED
          | some e => .raised e,
        final := restoreState (filteredSelection s) (snapMats s (filteredSelection s))
          (snapVerts s (filteredSelection s)) (snapEmpties s (filteredSelection s))
          ((tryBody orc (filteredSelection s) s).state),
        events := .savedMainFile :: (tryBody orc (filteredSelection s) s).events } := by
  simp only [execute, if_neg h]

theorem tryBody_err {orc : Bool} {sel : List String} {s s1 : State} {e : HostErr}
    (h : originPhase sel s = .err e s1) : tryBody orc sel s = ⟨s1, [], some e⟩ := by
  unfold tryBody
  rw [h]

theorem originPhase_custom {sel : List String} {s : State}
    (h : s.props.custom_origin = true) : originPhase sel s = set_origin_to_custom sel s := by
  unfold originPhase
  rw [h]
  rfl

theorem originPhase_bottom {sel : List String} {s : State}
    (h1 : s.props.custom_origin = false) (h2 : s.props.origin_at_bottom = true) :
    originPhase sel s = .ok (bottomFold sel s) := by
  unfold originPhase
  rw [h1, h2]
  rfl

theorem originPhase_default {sel : List String} {s : State}
    (h1 : s.props.custom_origin = false) (h2 : s.props.origin_at_bottom = false) :
    originPhase sel s = .ok (cursorOriginLoop sel s) := by
  unfold originPhase
  rw [h1, h2]
  rfl

/-! ### Claim theorems -/

/-- Claim C1: for every export invocation that enters the export
sequence (the filtered selection is non-empty, so the operator does not
cancel before snapshotting), whether the `try` body succeeds or raises,
the restore phase runs and sets every snapshotted mesh's world matrix
and vertex positions, and every snapshotted child empty's world matrix,
back exactly to the snapshotted values, and recenters the 3D cursor to
the world origin.  `orc` ranges over host-exporter outcomes, so the
conclusion covers both successful exports and exporter exceptions. -/
theorem claim1_restore_exact (orc : Bool) (s : State) (hnd : s.selected.Nodup)
    (hne : filteredSelection s ≠ []) :
    (execute orc s).final.cursor = vzero ∧
    (∀ p ∈ snapMats s (filteredSelection s), ∃ o',
      (execute orc s).final.find p.1 = some o' ∧ o'.matrix_world = p.2) ∧
    (∀ p ∈ snapVerts s (filteredSelection s), ∃ o',
      (execute orc s).final.find p.1 = some o' ∧ o'.vertices = p.2) ∧
    (∀ p ∈ snapEmpties s (filteredSelection s), ∃ o',
      (execute orc s).final.find p.1 = some o' ∧ o'.matrix_world = p.2) := by
  rw [execute_of_ne orc hne]
  have hndf : (filteredSelection s).Nodup := hnd.filter _
  have hsh := tryBody_shape orc (filteredSelection s) s
  refine ⟨rfl, ?_, ?_, ?_⟩
  · intro p hp
    obtain ⟨hmem, o, ho, ht, hval⟩ := snapMats_mem hp
    obtain ⟨o', hfind, hmat, _⟩ := restore_mesh_exact hndf hsh hmem ho ht
    exact ⟨o', hfind, hval ▸ hmat⟩
  · intro p hp
    obtain ⟨hmem, o, ho, ht, hval⟩ := snapVerts_mem hp
    obtain ⟨o', hfind, _, hverts⟩ := restore_mesh_exact hndf hsh hmem ho ht
    exact ⟨o', hfind, hval ▸ hverts⟩
  · intro p hp
    exact restore_empty_exact hsh (fun m hm => (mem_filteredSelection hm).2) hp

/-- Concrete instantiation of C1 on a scene with a rotated/scaled mesh,
its child empty marker, the origin-at-bottom policy, and a failing host
exporter: the restore phase still reinstates the snapshot exactly. -/
theorem claim1_witness :
    wSceneBottom.selected.Nodup ∧ filteredSelection wSceneBottom ≠ [] ∧
    (execute true wSceneBottom).final.cursor = vzero ∧
    (∃ o', (execute true wSceneBottom).final.find "M" = some o' ∧
      o'.matrix_world = wMesh.matrix_world) ∧
    (∃ o', (execute true wSceneBottom).final.find "M" = some o' ∧
      o'.vertices = wMesh.vertices) ∧
    (∃ o', (execute true wSceneBottom).final.find "E" = some o' ∧
      o'.matrix_world = wEmpty.matrix_world) := by
  have h := claim1_restore_exact true wSceneBottom (by decide) (by decide)
  exact ⟨by decide, by decide, h.1,
    h.2.1 ("M", wMesh.matrix_world) (by decide),
    h.2.2.1 ("M", wMesh.vertices) (by decide),
    h.2.2.2 ("E", wEmpty.matrix_world) (by decide)⟩

/-- Claim C2, counterexample: a selected curve (type neither `MESH` nor
`EMPTY`) passes the selection filter, is mutated by the export sequence
(its location is zeroed), yet has no snapshot entry, and the restore
phase leaves it at the origin instead of its original location (1,2,3).
So an object mutated during export can lack a snapshot entry. -/
theorem claim2_counterexample :
    (wSceneCurve.find "C").map (fun o => o.matrix_world.tr) = some ⟨1, 2, 3⟩ ∧
    filteredSelection wSceneCurve = ["C"] ∧
    alookup "C" (snapMats wSceneCurve (filteredSelection wSceneCurve)) = none ∧
    alookup "C" (snapVerts wSceneCurve (filteredSelection wSceneCurve)) = none ∧
    (execute false wSceneCurve).result = .FINISHED ∧
    ((execute false wSceneCurve).final.find "C").map (fun o => o.matrix_world.tr) =
      some vzero := by
  refine ⟨rfl, rfl, rfl, rfl, rfl, ?_⟩
  rfl

/-- Claim C2 as amended: every selected MESH object and every child
empty of a selected object has a snapshot entry equal to its
pre-mutation (initial) value and is restored to it; but selected
objects of any other type are zeroed without a snapshot entry: neither
snapshot dictionary contains them, so the restore loop skips them. -/
theorem claim2_amended (orc : Bool) (s : State) (hnd : s.selected.Nodup)
    (hne : filteredSelection s ≠ []) :
    (∀ n ∈ filteredSelection s, ∀ o : Obj, s.find n = some o → o.type = ObjType.MESH →
      alookup n (snapMats s (filteredSelection s)) = some o.matrix_world ∧
      alookup n (snapVerts s (filteredSelection s)) = some o.vertices ∧
      ∃ o', (execute orc s).final.find n = some o' ∧
        o'.matrix_world = o.matrix_world ∧ o'.vertices = o.vertices) ∧
    (∀ p ∈ snapEmpties s (filteredSelection s), ∃ o',
      (execute orc s).final.find p.1 = some o' ∧ o'.matrix_world = p.2) ∧
    (∀ n ∈ filteredSelection s, ∀ o : Obj, s.find n = some o → o.type ≠ ObjType.MESH →
      o.type ≠ ObjType.EMPTY →
      alookup n (snapMats s (filteredSelection s)) = none ∧
      alookup n (snapVerts s (filteredSelection s)) = none) := by
  rw [execute_of_ne orc hne]
  have hndf : (filteredSelection s).Nodup := hnd.filter _
  have hsh := tryBody_shape orc (filteredSelection s) s
  refine ⟨?_, ?_, ?_⟩
  · intro n hmem o ho ht
    exact ⟨snapMats_lookup ho ht hmem, snapVerts_lookup ho ht hmem,
      restore_mesh_exact hndf hsh hmem ho ht⟩
  · intro p hp
    exact restore_empty_exact hsh (fun m hm => (mem_filteredSelection hm).2) hp
  · intro n hmem o ho ht _
    constructor
    · cases hv : alookup n (snapMats s (filteredSelection s)) with
      | none => rfl
      | some mm =>
        obtain ⟨_, o2, ho2, ht2, _⟩ := snapMats_mem (alookup_mem hv)
        rw [ho] at ho2
        cases ho2
        exact absurd ht2 ht
    · cases hv : alookup n (snapVerts s (filteredSelection s)) with
      | none => rfl
      | some vs =>
        obtain ⟨_, o2, ho2, ht2, _⟩ := snapVerts_mem (alookup_mem hv)
        rw [ho] at ho2
        cases ho2
        exact absurd ht2 ht

/-- Concrete instantiation of the amended C2 on the mesh/marker scene. -/
theorem claim2_witness :
    wSceneBottom.selected.Nodup ∧ filteredSelection wSceneBottom ≠ [] ∧
    (alookup "M" (snapMats wSceneBottom (filteredSelection wSceneBottom)) =
      some wMesh.matrix_world ∧
     alookup "M" (snapVerts wSceneBottom (filteredSelection wSceneBottom)) =
      some wMesh.vertices ∧
     ∃ o', (execute false wSceneBottom).final.find "M" = some o' ∧
       o'.matrix_world = wMesh.matrix_world ∧ o'.vertices = wMesh.vertices) := by
  have h := claim2_amended false wSceneBottom (by decide) (by decide)
  exact ⟨by decide, by decide, h.1 "M" (by decide) wMesh (by decide) (by decide)⟩

/-- Claim C3: with a selection that filters to nothing, the operator
reports the error and cancels: the state is returned unchanged, the only
events are the initial document save and the error report, and no
exporter call is made. -/
theorem claim3_no_valid_objects (orc : Bool) (s : State) (h : filteredSelection s = []) :
    (execute orc s).result = .CANCELLED ∧
    (execute orc s).final = s ∧
    (execute orc s).events =
      [.savedMainFile, .reportedError "No valid mesh objects to export."] ∧
    exportCallPaths (execute orc s).events = [] := by
  rw [execute_cancel orc h]
  exact ⟨rfl, rfl, rfl, rfl⟩

/-- Concrete instantiation of C3: only the empty marker is selected. -/
theorem claim3_witness :
    filteredSelection wSceneOnlyEmpty = [] ∧
    (execute false wSceneOnlyEmpty).result = .CANCELLED ∧
    (execute false wSceneOnlyEmpty).final = wSceneOnlyEmpty ∧
    exportCallPaths (execute false wSceneOnlyEmpty).events = [] := by
  have h := claim3_no_valid_objects false wSceneOnlyEmpty (by decide)
  exact ⟨by decide, h.1, h.2.1, h.2.2.2⟩

/-- Claim C4, failing input: a non-batch OBJ export.  The call site
passes the misspelled keyword `export_trianguled_mesh` and never passes
`export_triangulated_mesh`, so the host rejects the keyword set with a
`TypeError` and the OBJ exporter is not invoked with triangulation
forced on (the batch path, by contrast, spells the keyword correctly).
The recorded call shows `export_triangulated_mesh := none` and
`export_trianguled_mesh := some true`, and `execute` propagates the
`TypeError` after the restore phase. -/
theorem claim4_nonbatch_obj_typo :
    (execute false wSceneObjSingle).result = .raised .typeError ∧
    (execute false wSceneObjSingle).events =
      [.savedMainFile, .ensuredDir "d",
       .objExport ⟨"d/out.obj", true, true, none, some true⟩] := by
  exact ⟨rfl, by decide⟩

/-! ### Bounding-box arithmetic for the at-bottom origin policy -/

theorem foldl_minmax_le (f : Vec3 → ℚ) :
    ∀ (r : List Vec3) (a b : ℚ), a ≤ b →
    r.foldl (fun x w => min x (f w)) a ≤ r.foldl (fun x w => max x (f w)) b := by
  intro r
  induction r with
  | nil => intro a b h; exact h
  | cons v t ih =>
    intro a b h
    rw [List.foldl_cons, List.foldl_cons]
    exact ih _ _ (le_trans (min_le_left a (f v)) (le_trans h (le_max_left b (f v))))

theorem lmin_le_lmax (f : Vec3 → ℚ) {l : List Vec3} (h : l ≠ []) : lmin f l ≤ lmax f l := by
  cases l with
  | nil => exact absurd rfl h
  | cons v t => exact foldl_minmax_le f t (f v) (f v) le_rfl

theorem foldl_min_shift (f : Vec3 → ℚ) (g : Vec3 → Vec3) (k : ℚ)
    (hf : ∀ v, f (g v) = f v - k) :
    ∀ (r : List Vec3) (a : ℚ),
    (r.map g).foldl (fun x w => min x (f w)) (a - k) =
      r.foldl (fun x w => min x (f w)) a - k := by
  intro r
  induction r with
  | nil => intro a; rfl
  | cons v t ih =>
    intro a
    rw [List.map_cons, List.foldl_cons, List.foldl_cons, hf v, min_sub_sub_right]
    exact ih (min a (f v))

theorem foldl_max_shift (f : Vec3 → ℚ) (g : Vec3 → Vec3) (k : ℚ)
    (hf : ∀ v, f (g v) = f v - k) :
    ∀ (r : List Vec3) (a : ℚ),
    (r.map g).foldl (fun x w => max x (f w)) (a - k) =
      r.foldl (fun x w => max x (f w)) a - k := by
  intro r
  induction r with
  | nil => intro a; rfl
  | cons v t ih =>
    intro a
    rw [List.map_cons, List.foldl_cons, List.foldl_cons, hf v, max_sub_sub_right]
    exact ih (max a (f v))

theorem lmin_map_shift (f : Vec3 → ℚ) (g : Vec3 → Vec3) (k : ℚ)
    (hf : ∀ v, f (g v) = f v - k) {l : List Vec3} (h : l ≠ []) :
    lmin f (l.map g) = lmin f l - k := by
  cases l with
  | nil => exact absurd rfl h
  | cons v t =>
    show (t.map g).foldl (fun x w => min x (f w)) (f (g v)) =
      t.foldl (fun x w => min x (f w)) (f v) - k
    rw [hf v]
    exact foldl_min_shift f g k hf t (f v)

theorem lmax_map_shift (f : Vec3 → ℚ) (g : Vec3 → Vec3) (k : ℚ)
    (hf : ∀ v, f (g v) = f v - k) {l : List Vec3} (h : l ≠ []) :
    lmax f (l.map g) = lmax f l - k := by
  cases l with
  | nil => exact absurd rfl h
  | cons v t =>
    show (t.map g).foldl (fun x w => max x (f w)) (f (g v)) =
      t.foldl (fun x w => max x (f w)) (f v) - k
    rw [hf v]
    exact foldl_max_shift f g k hf t (f v)

theorem map_ne_nil {l : List Vec3} (g : Vec3 → Vec3) (h : l ≠ []) : l.map g ≠ [] := by
  cases l with
  | nil => exact absurd rfl h
  | cons v t => simp

theorem bbTarget_eq {l : List Vec3} (h : l ≠ []) :
    bbTarget l = ⟨(lmin Vec3.x l + lmax Vec3.x l) / 2, (lmin Vec3.y l + lmax Vec3.y l) / 2,
      lmin Vec3.z l⟩ := by
  have hz := lmin_le_lmax Vec3.z h
  have hq : qmin [lmin Vec3.z l, lmax Vec3.z l, lmax Vec3.z l, lmin Vec3.z l, lmin Vec3.z l,
      lmax Vec3.z l, lmax Vec3.z l, lmin Vec3.z l] = lmin Vec3.z l := by
    simp [qmin, min_eq_left hz, min_self]
  show (⟨(lmin Vec3.x l + lmax Vec3.x l) / 2, (lmin Vec3.y l + lmax Vec3.y l) / 2,
      qmin [lmin Vec3.z l, lmax Vec3.z l, lmax Vec3.z l, lmin Vec3.z l, lmin Vec3.z l,
        lmax Vec3.z l, lmax Vec3.z l, lmin Vec3.z l]⟩ : Vec3) = _
  rw [hq]

/-- Claim C5: `set_origin_at_bottom`, applied to a mesh object (here:
its state `obj1` after the rotation/scale apply, with a non-empty vertex
list), returns the bound-box point mapped through the pre-translation
world matrix; that point is (bounding-box horizontal center x,
horizontal center y, minimum z); the vertex data is translated by its
negation; and afterwards the local bounding box has minimum z 0 and
horizontal center (0, 0). -/
theorem claim5_origin_at_bottom (s : State) (n : String) (obj1 : Obj)
    (_hm : obj1.type = ObjType.MESH)
    (h1 : (transform_apply_rot_scale s).find n = some obj1) (h2 : obj1.vertices ≠ []) :
    (set_origin_at_bottom n s).2 = obj1.matrix_world.apply (bbTarget obj1.vertices) ∧
    bbTarget obj1.vertices =
      ⟨(lmin Vec3.x obj1.vertices + lmax Vec3.x obj1.vertices) / 2,
       (lmin Vec3.y obj1.vertices + lmax Vec3.y obj1.vertices) / 2,
       lmin Vec3.z obj1.vertices⟩ ∧
    ∃ o2, (set_origin_at_bottom n s).1.find n = some o2 ∧
      o2.vertices = obj1.vertices.map (fun v => v - bbTarget obj1.vertices) ∧
      lmin Vec3.z o2.vertices = 0 ∧
      (lmin Vec3.x o2.vertices + lmax Vec3.x o2.vertices) / 2 = 0 ∧
      (lmin Vec3.y o2.vertices + lmax Vec3.y o2.vertices) / 2 = 0 := by
  have hred1 : (set_origin_at_bottom n s).2 =
      obj1.matrix_world.apply (bbTarget obj1.vertices) := by
    simp [set_origin_at_bottom, h1]
  have hred2 : (set_origin_at_bottom n s).1 =
      (transform_apply_rot_scale s).update n
        (fun o => { o with
          vertices := o.vertices.map (fun v => v - bbTarget obj1.vertices) }) := by
    simp [set_origin_at_bottom, h1]
  have hfind : (set_origin_at_bottom n s).1.find n =
      some { obj1 with
        vertices := obj1.vertices.map (fun v => v - bbTarget obj1.vertices) } := by
    rw [hred2]
    exact State.find_update_self
      (fun o => { o with vertices := o.vertices.map (fun v => v - bbTarget obj1.vertices) })
      (fun _ => rfl) h1
  have hc := bbTarget_eq h2
  have hcx : (bbTarget obj1.vertices).x =
      (lmin Vec3.x obj1.vertices + lmax Vec3.x obj1.vertices) / 2 := by rw [hc]
  have hcy : (bbTarget obj1.vertices).y =
      (lmin Vec3.y obj1.vertices + lmax Vec3.y obj1.vertices) / 2 := by rw [hc]
  have hcz : (bbTarget obj1.vertices).z = lmin Vec3.z obj1.vertices := by rw [hc]
  refine ⟨hred1, hc, ?_⟩
  refine ⟨_, hfind, rfl, ?_, ?_, ?_⟩
  · show lmin Vec3.z (obj1.vertices.map (fun v => v - bbTarget obj1.vertices)) = 0
    rw [lmin_map_shift Vec3.z _ (bbTarget obj1.vertices).z
      (fun v => Vec3.sub_z v (bbTarget obj1.vertices)) h2, hcz]
    exact sub_self _
  · show (lmin Vec3.x (obj1.vertices.map (fun v => v - bbTarget obj1.vertices)) +
      lmax Vec3.x (obj1.vertices.map (fun v => v - bbTarget obj1.vertices))) / 2 = 0
    rw [lmin_map_shift Vec3.x _ (bbTarget obj1.vertices).x
        (fun v => Vec3.sub_x v (bbTarget obj1.vertices)) h2,
      lmax_map_shift Vec3.x _ (bbTarget obj1.vertices).x
        (fun v => Vec3.sub_x v (bbTarget obj1.vertices)) h2, hcx]
    ring
  · show (lmin Vec3.y (obj1.vertices.map (fun v => v - bbTarget obj1.vertices)) +
      lmax Vec3.y (obj1.vertices.map (fun v => v - bbTarget obj1.vertices))) / 2 = 0
    rw [lmin_map_shift Vec3.y _ (bbTarget obj1.vertices).y
        (fun v => Vec3.sub_y v (bbTarget obj1.vertices)) h2,
      lmax_map_shift Vec3.y _ (bbTarget obj1.vertices).y
        (fun v => Vec3.sub_y v (bbTarget obj1.vertices)) h2, hcy]
    ring

/-- Concrete instantiation of C5 on the rotated/scaled mesh. -/
theorem claim5_witness :
    wMeshApplied.type = ObjType.MESH ∧
    (transform_apply_rot_scale wSceneBottom).find "M" = some wMeshApplied ∧
    wMeshApplied.vertices ≠ [] ∧
    ((set_origin_at_bottom "M" wSceneBottom).2 =
        wMeshApplied.matrix_world.apply (bbTarget wMeshApplied.vertices) ∧
      bbTarget wMeshApplied.vertices =
        ⟨(lmin Vec3.x wMeshApplied.vertices + lmax Vec3.x wMeshApplied.vertices) / 2,
         (lmin Vec3.y wMeshApplied.vertices + lmax Vec3.y wMeshApplied.vertices) / 2,
         lmin Vec3.z wMeshApplied.vertices⟩ ∧
      ∃ o2, (set_origin_at_bottom "M" wSceneBottom).1.find "M" = some o2 ∧
        o2.vertices = wMeshApplied.vertices.map (fun v => v - bbTarget wMeshApplied.vertices) ∧
        lmin Vec3.z o2.vertices = 0 ∧
        (lmin Vec3.x o2.vertices + lmax Vec3.x o2.vertices) / 2 = 0 ∧
        (lmin Vec3.y o2.vertices + lmax Vec3.y o2.vertices) / 2 = 0) :=
  ⟨by decide, by norm_num [transform_apply_rot_scale, State.update, State.find, wSceneBottom,
      wMesh, wEmpty, wMeshApplied, Mat3.mulVec, Mat3.id, wProps], by decide,
    claim5_origin_at_bottom wSceneBottom "M" wMeshApplied (by decide)
      (by norm_num [transform_apply_rot_scale, State.update, State.find, wSceneBottom,
        wMesh, wEmpty, wMeshApplied, Mat3.mulVec, Mat3.id, wProps]) (by decide)⟩

/-! ### The custom-empty marker search -/

theorem findCustomEmpty_none_of {s : State} {se : String}
    (hse : s.props.selected_empty = some se) :
    ∀ cs : List String, (∀ c ∈ cs, ∀ ch, s.find c = some ch →
      ¬(ch.type = ObjType.EMPTY ∧ (se = "" ∨ ch.name = se))) →
    findCustomEmpty s cs = .ok none := by
  intro cs
  induction cs with
  | nil => intro _; rfl
  | cons c rest ih =>
    intro h
    unfold findCustomEmpty
    cases hf : s.find c with
    | none => exact ih (fun c2 hc2 ch hch => h c2 (List.mem_cons_of_mem _ hc2) ch hch)
    | some child =>
      by_cases ht : child.type = ObjType.EMPTY
      · simp only [ht, if_true, hse]
        have hno : ¬(se = "" ∨ child.name = se) :=
          fun hor => h c (List.mem_cons_self c rest) child hf ⟨ht, hor⟩
        rw [if_neg hno]
        exact ih (fun c2 hc2 ch hch => h c2 (List.mem_cons_of_mem _ hc2) ch hch)
      · simp only [ht, if_false]
        exact ih (fun c2 hc2 ch hch => h c2 (List.mem_cons_of_mem _ hc2) ch hch)

theorem findCustomEmpty_congr (s t : State)
    (hp : t.props.selected_empty = s.props.selected_empty) :
    ∀ cs : List String, (∀ c ∈ cs, t.find c = s.find c ∨
      (∃ o o', s.find c = some o ∧ t.find c = some o' ∧ o.type ≠ ObjType.EMPTY ∧
        o'.type ≠ ObjType.EMPTY)) →
    findCustomEmpty t cs = findCustomEmpty s cs := by
  intro cs
  induction cs with
  | nil => intro _; rfl
  | cons c rest ih =>
    intro h
    have hrest := fun c2 hc2 => h c2 (List.mem_cons_of_mem _ hc2)
    cases h c (List.mem_cons_self c rest) with
    | inl he =>
      unfold findCustomEmpty
      rw [he]
      cases hf : s.find c with
      | none => exact ih hrest
      | some child =>
        by_cases ht : child.type = ObjType.EMPTY
        · simp only [ht, if_true, hp]
          cases s.props.selected_empty with
          | none => rfl
          | some se =>
            show (if se = "" ∨ child.name = se then Except.ok (some child)
                else findCustomEmpty t rest) =
              (if se = "" ∨ child.name = se then Except.ok (some child)
                else findCustomEmpty s rest)
            by_cases hor : se = "" ∨ child.name = se
            · rw [if_pos hor, if_pos hor]
            · rw [if_neg hor, if_neg hor]
              exact ih hrest
        · simp only [ht, if_false]
          exact ih hrest
    | inr he =>
      obtain ⟨o, o', ho, ho', hoT, hoT'⟩ := he
      unfold findCustomEmpty
      rw [ho, ho']
      simp only [if_neg hoT, if_neg hoT']
      exact ih hrest

/-- Claim C6: under the CustomEmptyAnchor policy with the
`selected_empty` attribute present, per mesh object: when no child
empty matches (by name when a marker name is given, else any empty
child), `process_obj` is a no-op; when the search finds a marker `ce`,
the cursor moves to the marker's world translation, the object becomes
the sole selected and active object, and the cursor-anchored origin-set
relocates the object's world origin to the marker's world translation
(the rotation/scale part of its transform is unchanged). -/
theorem claim6_custom_empty_anchor (s : State) (n : String) (obj : Obj) (se : String)
    (hse : s.props.selected_empty = some se)
    (hf : s.find n = some obj) (hm : obj.type = ObjType.MESH) :
    ((∀ c ∈ obj.children, ∀ ch, s.find c = some ch →
        ¬(ch.type = ObjType.EMPTY ∧ (se = "" ∨ ch.name = se))) →
      processObj n s = .ok s) ∧
    (∀ ce, findCustomEmpty s obj.children = .ok (some ce) →
      ∃ s', processObj n s = .ok s' ∧
        s'.cursor = ce.matrix_world.tr ∧
        s'.selected = [n] ∧ s'.active = some n ∧
        ∃ o', s'.find n = some o' ∧ o'.matrix_world.tr = ce.matrix_world.tr ∧
          o'.matrix_world.lin = obj.matrix_world.lin) := by
  constructor
  · intro h
    unfold processObj
    rw [hf]
    simp only [hm, if_true]
    rw [findCustomEmpty_none_of hse obj.children h]
  · intro ce hfc
    refine ⟨origin_set_cursor
      { s with cursor := ce.matrix_world.tr, selected := [n], active := some n }, ?_, ?_, ?_, ?_, ?_⟩
    · unfold processObj
      rw [hf]
      simp only [hm, if_true]
      rw [hfc]
    · rw [origin_set_cursor_eq]
    · rw [origin_set_selected]
    · rw [origin_set_active]
    · refine ⟨{ obj with
        matrix_world := ⟨obj.matrix_world.lin, ce.matrix_world.tr⟩,
        vertices := obj.vertices.map (fun v => v +
          (Mat3.inv3 obj.matrix_world.lin).mulVec
            (obj.matrix_world.tr - ce.matrix_world.tr)) }, ?_, rfl, rfl⟩
      exact State.find_update_self
        (fun o => { o with
          matrix_world := ⟨o.matrix_world.lin, ce.matrix_world.tr⟩,
          vertices := o.vertices.map (fun v => v +
            (Mat3.inv3 o.matrix_world.lin).mulVec
              (o.matrix_world.tr - ce.matrix_world.tr)) })
        (fun _ => rfl) hf

/-- Concrete instantiation of C6: the marker child `wEmpty` is found
(empty marker-name filter), and the origin of `wMesh` moves to its
world translation. -/
theorem claim6_witness :
    wSceneCustom.props.selected_empty = some "" ∧
    wSceneCustom.find "M" = some wMesh ∧
    wMesh.type = ObjType.MESH ∧
    findCustomEmpty wSceneCustom wMesh.children = Except.ok (some wEmpty) ∧
    (∃ s', processObj "M" wSceneCustom = .ok s' ∧
      s'.cursor = wEmpty.matrix_world.tr ∧
      s'.selected = ["M"] ∧ s'.active = some "M" ∧
      ∃ o', s'.find "M" = some o' ∧ o'.matrix_world.tr = wEmpty.matrix_world.tr ∧
        o'.matrix_world.lin = wMesh.matrix_world.lin) := by
  refine ⟨rfl, by decide, by decide, by decide, ?_⟩
  exact (claim6_custom_empty_anchor wSceneCustom "M" wMesh "" rfl (by decide) (by decide)).2
    wEmpty (by decide)

/-! ### Export-phase event characterizations -/

theorem exportCallPaths_append (l1 l2 : List Effect) :
    exportCallPaths (l1 ++ l2) = exportCallPaths l1 ++ exportCallPaths l2 :=
  List.filterMap_append l1 l2 _

theorem export_objects_paths (fmt : ExpFormat) (dir : String) (mods tria : Bool) (cols : VCol) :
    ∀ (l : List String) (s : State) (evs : List Effect),
    exportCallPaths (export_objects fmt dir mods tria cols false l s evs).events =
      exportCallPaths evs ++
        l.map (fun n => dir ++ "/" ++ cleanName n ++ "." ++ fmt.lower) := by
  intro l
  induction l with
  | nil => intro s evs; simp [export_objects]
  | cons n r ih =>
    intro s evs
    cases fmt with
    | FBX =>
      show exportCallPaths (export_objects ExpFormat.FBX dir mods tria cols false r
        { s with active := some n, selected := [n] }
        (evs ++ [Effect.fbxExport (dir ++ "/" ++ cleanName n ++ "." ++ ExpFormat.FBX.lower)
          true mods tria cols])).events = _
      rw [ih, exportCallPaths_append]
      simp [exportCallPaths, List.map_cons]
    | OBJ =>
      show exportCallPaths (export_objects ExpFormat.OBJ dir mods tria cols false r
        { s with active := some n, selected := [n] }
        (evs ++ [Effect.objExport ⟨dir ++ "/" ++ cleanName n ++ "." ++ ExpFormat.OBJ.lower,
          true, true, some true, none⟩])).events = _
      rw [ih, exportCallPaths_append]
      simp [exportCallPaths, List.map_cons]

theorem singleExport_paths (sel : List String) (fmt : ExpFormat) (dir : String)
    (mods tria : Bool) (cols : VCol) (orc : Bool) (s : State) (evs : List Effect)
    (an : String) (hact : s.active = some an) :
    exportCallPaths (singleExport sel fmt dir mods tria cols orc s evs).events =
      exportCallPaths evs ++
        [dir ++ "/" ++
          cleanName (if s.props.set_file_name = "" then an else s.props.set_file_name) ++
          "." ++ fmt.lower] := by
  unfold singleExport
  by_cases hsf : s.props.set_file_name = ""
  · simp only [hsf, if_true, hact]
    cases fmt <;> cases orc <;>
      simp [callFbx, callObjExport, exportCallPaths_append, exportCallPaths]
  · simp only [hsf, if_false]
    cases fmt <;> cases orc <;>
      simp [callFbx, callObjExport, exportCallPaths_append, exportCallPaths]

/-- Claim C7: when the origin phase completes, a batch export invokes
the exporter once per (filtered) selected object, each call receiving a
filepath built from the sanitized object name plus the lowercase format
extension; a non-batch export invokes the exporter exactly once, with
the base name taken from the sanitized user filename or, when that is
empty, the name of the object active at export time. -/
theorem claim7_export_naming (s : State) (hne : filteredSelection s ≠ []) :
    (∀ s1, s.props.batch_export = true →
      originPhase (filteredSelection s) s = .ok s1 →
      exportCallPaths (execute false s).events =
        (filteredSelection s).map (fun n =>
          s.props.mesh_directory_path ++ "/" ++ cleanName n ++ "." ++
            s.props.export_types.lower)) ∧
    (∀ s1 an, s.props.batch_export = false →
      originPhase (filteredSelection s) s = .ok s1 → s1.active = some an →
      exportCallPaths (execute false s).events =
        [s.props.mesh_directory_path ++ "/" ++
          cleanName (if s.props.set_file_name = "" then an else s.props.set_file_name) ++
          "." ++ s.props.export_types.lower]) := by
  have key : exportCallPaths (execute false s).events =
      exportCallPaths (tryBody false (filteredSelection s) s).events := by
    rw [execute_of_ne false hne]
    rfl
  constructor
  · intro s1 hb hok
    have hprops : (zeroLocations (filteredSelection s) s1).props = s.props := by
      rw [zeroLocations_props]
      have hp := originPhase_props (filteredSelection s) s
      rw [hok] at hp
      exact hp
    have htb : tryBody false (filteredSelection s) s =
        (if (zeroLocations (filteredSelection s) s1).props.batch_export = true then
          export_objects (zeroLocations (filteredSelection s) s1).props.export_types
            (zeroLocations (filteredSelection s) s1).props.mesh_directory_path
            (zeroLocations (filteredSelection s) s1).props.include_modifiers_fbx
            (zeroLocations (filteredSelection s) s1).props.use_triangles_fbx
            (zeroLocations (filteredSelection s) s1).props.use_vertex_colors_fbx false
            (filteredSelection s) (zeroLocations (filteredSelection s) s1)
            [Effect.ensuredDir
              (zeroLocations (filteredSelection s) s1).props.mesh_directory_path]
        else
          singleExport (filteredSelection s)
            (zeroLocations (filteredSelection s) s1).props.export_types
            (zeroLocations (filteredSelection s) s1).props.mesh_directory_path
            (zeroLocations (filteredSelection s) s1).props.include_modifiers_fbx
            (zeroLocations (filteredSelection s) s1).props.use_triangles_fbx
            (zeroLocations (filteredSelection s) s1).props.use_vertex_colors_fbx false
            (zeroLocations (filteredSelection s) s1)
            [Effect.ensuredDir
              (zeroLocations (filteredSelection s) s1).props.mesh_directory_path]) := by
      unfold tryBody
      rw [hok]
    rw [key, htb, hprops, if_pos hb, export_objects_paths]
    simp [exportCallPaths]
  · intro s1 an hb hok hact
    have hprops : (zeroLocations (filteredSelection s) s1).props = s.props := by
      rw [zeroLocations_props]
      have hp := originPhase_props (filteredSelection s) s
      rw [hok] at hp
      exact hp
    have hact2 : (zeroLocations (filteredSelection s) s1).active = some an := by
      rw [zeroLocations_active]
      exact hact
    have htb : tryBody false (filteredSelection s) s =
        (if (zeroLocations (filteredSelection s) s1).props.batch_export = true then
          export_objects (zeroLocations (filteredSelection s) s1).props.export_types
            (zeroLocations (filteredSelection s) s1).props.mesh_directory_path
            (zeroLocations (filteredSelection s) s1).props.include_modifiers_fbx
            (zeroLocations (filteredSelection s) s1).props.use_triangles_fbx
            (zeroLocations (filteredSelection s) s1).props.use_vertex_colors_fbx false
            (filteredSelection s) (zeroLocations (filteredSelection s) s1)
            [Effect.ensuredDir
              (zeroLocations (filteredSelection s) s1).props.mesh_directory_path]
        else
          singleExport (filteredSelection s)
            (zeroLocations (filteredSelection s) s1).props.export_types
            (zeroLocations (filteredSelection s) s1).props.mesh_directory_path
            (zeroLocations (filteredSelection s) s1).props.include_modifiers_fbx
            (zeroLocations (filteredSelection s) s1).props.use_triangles_fbx
            (zeroLocations (filteredSelection s) s1).props.use_vertex_colors_fbx false
            (zeroLocations (filteredSelection s) s1)
            [Effect.ensuredDir
              (zeroLocations (filteredSelection s) s1).props.mesh_directory_path]) := by
      unfold tryBody
      rw [hok]
    rw [key, htb]
    rw [if_neg (by rw [hprops, hb]; exact Bool.false_ne_true)]
    rw [singleExport_paths _ _ _ _ _ _ _ _ _ an hact2, hprops]
    simp [exportCallPaths]

/-- Concrete instantiation of C7: batch export of two meshes produces
two exporter calls with sanitized per-object filenames. -/
theorem claim7_witness :
    filteredSelection wSceneBatch ≠ [] ∧
    wSceneBatch.props.batch_export = true ∧
    originPhase (filteredSelection wSceneBatch) wSceneBatch =
      .ok (cursorOriginLoop (filteredSelection wSceneBatch) wSceneBatch) ∧
    exportCallPaths (execute false wSceneBatch).events = ["d/M.fbx", "d/N_2.fbx"] := by
  have h := (claim7_export_naming wSceneBatch (by decide)).1
    (cursorOriginLoop (filteredSelection wSceneBatch) wSceneBatch) rfl
    (originPhase_default rfl rfl)
  refine ⟨by decide, rfl, originPhase_default rfl rfl, ?_⟩
  rw [h]
  decide

/-! ### The move-to-origin loop -/

theorem find_update_isSome (s : State) (m : String) (f : Obj → Obj)
    (hf : ∀ o, (f o).name = o.name) (n : String) :
    ((s.update m f).find n).isSome = (s.find n).isSome := by
  rw [State.find_update s m f hf n]
  cases s.find n <;> rfl

theorem zeroLocations_mem_find : ∀ (l : List String) (st : State) (n : String),
    n ∈ l → (st.find n).isSome →
    ∃ o', (zeroLocations l st).find n = some o' ∧ o'.matrix_world.tr = vzero := by
  intro l
  induction l with
  | nil => intro st n hm; cases hm
  | cons m r ih =>
    intro st n hm hsome
    have hstep : zeroLocations (m :: r) st =
        zeroLocations r (st.update m
          (fun o => { o with matrix_world := ⟨o.matrix_world.lin, vzero⟩ })) := rfl
    rw [hstep]
    by_cases hnr : n ∈ r
    · refine ih _ n hnr ?_
      rw [find_update_isSome st m
        (fun o => { o with matrix_world := ⟨o.matrix_world.lin, vzero⟩ }) (fun _ => rfl) n]
      exact hsome
    · have hnm : n = m := ((List.mem_cons.1 hm).resolve_right hnr)
      subst hnm
      rcases hf : st.find n with _ | o
      · rw [hf] at hsome; cases hsome
      have h1 : (st.update n
          (fun o => { o with matrix_world := ⟨o.matrix_world.lin, vzero⟩ })).find n =
          some { o with matrix_world := ⟨o.matrix_world.lin, vzero⟩ } :=
        State.find_update_self _ (fun _ => rfl) hf
      have h2 : (zeroLocations r (st.update n
          (fun o => { o with matrix_world := ⟨o.matrix_world.lin, vzero⟩ }))).find n =
          (st.update n
            (fun o => { o with matrix_world := ⟨o.matrix_world.lin, vzero⟩ })).find n := by
        refine foldl_find_pres _ n r _ (fun st1 a ha => ?_)
        exact State.find_update_ne _ (fun _ => rfl) (fun hc => hnr (hc ▸ ha))
      exact ⟨_, h2.trans h1, rfl⟩

/-- Claim C8: the origin-handling dispatch applies exactly one policy,
with precedence CustomEmptyAnchor over AtBottomCenter over the default
CursorAtObject (so `origin_at_bottom` is ignored whenever
`custom_origin` is set); and after a successful origin phase, the
move-to-origin loop leaves every (filtered) selected object's location
at (0, 0, 0). -/
theorem claim8_origin_policy (s : State) :
    (s.props.custom_origin = true →
      originPhase (filteredSelection s) s = set_origin_to_custom (filteredSelection s) s) ∧
    (s.props.custom_origin = false → s.props.origin_at_bottom = true →
      originPhase (filteredSelection s) s = .ok (bottomFold (filteredSelection s) s)) ∧
    (s.props.custom_origin = false → s.props.origin_at_bottom = false →
      originPhase (filteredSelection s) s = .ok (cursorOriginLoop (filteredSelection s) s)) ∧
    (∀ s1, originPhase (filteredSelection s) s = .ok s1 →
      ∀ n ∈ filteredSelection s, ∃ o',
        (zeroLocations (filteredSelection s) s1).find n = some o' ∧
          o'.matrix_world.tr = vzero) := by
  refine ⟨fun h => originPhase_custom h, fun h1 h2 => originPhase_bottom h1 h2,
    fun h1 h2 => originPhase_default h1 h2, ?_⟩
  intro s1 hok n hn
  obtain ⟨o, ho, _⟩ := (mem_filteredSelection hn).2
  have hsh := originPhase_shape (filteredSelection s) s
  rw [hok] at hsh
  obtain ⟨o1, ho1, _⟩ := shapeEq_find_some hsh ho
  simp only [PRes.state] at ho1
  refine zeroLocations_mem_find (filteredSelection s) s1 n hn ?_
  rw [ho1]
  rfl

/-- Concrete instantiation of C8 on the batch scene (both origin flags
off: the default cursor policy is selected and locations end at the
origin). -/
theorem claim8_witness :
    originPhase (filteredSelection wSceneBatch) wSceneBatch =
      .ok (cursorOriginLoop (filteredSelection wSceneBatch) wSceneBatch) ∧
    (∃ o', (zeroLocations (filteredSelection wSceneBatch)
        (cursorOriginLoop (filteredSelection wSceneBatch) wSceneBatch)).find "M" = some o' ∧
      o'.matrix_world.tr = vzero) := by
  have h := claim8_origin_policy wSceneBatch
  exact ⟨h.2.2.1 rfl rfl,
    h.2.2.2 _ (h.2.2.1 rfl rfl) "M" (by decide)⟩

/-! ### Idempotence of the custom-origin per-object processing -/

theorem State.eq_of_fields {s t : State} (h1 : s.objects = t.objects)
    (h2 : s.cursor = t.cursor) (h3 : s.selected = t.selected) (h4 : s.active = t.active)
    (h5 : s.props = t.props) : s = t := by
  cases s
  cases t
  simp only at h1 h2 h3 h4 h5
  rw [h1, h2, h3, h4, h5]

theorem origin_set_cursor_already (t : State) (n : String) (c : Vec3)
    (hsel : t.selected = [n]) (hcur : t.cursor = c)
    (hobj : ∀ ob ∈ t.objects, ob.name = n → ob.matrix_world.tr = c) :
    origin_set_cursor t = t := by
  unfold origin_set_cursor
  rw [hsel]
  show t.update n (fun o =>
    { o with matrix_world := ⟨o.matrix_world.lin, t.cursor⟩,
             vertices := o.vertices.map
               (fun v => v + (Mat3.inv3 o.matrix_world.lin).mulVec
                 (o.matrix_world.tr - t.cursor)) }) = t
  apply State.update_id
  intro ob hob hobn
  have htr := hobj ob hob hobn
  obtain ⟨nm, ty, mw, vs, ch⟩ := ob
  obtain ⟨A, tr⟩ := mw
  have htr2 : tr = c := htr
  simp only [hcur, htr2, Vec3.sub_self_eq, Mat3.mulVec_vzero, Vec3.add_vzero]
  simp

/-- Second-pass no-op: after `process_obj` moved an object's origin to
its marker `ce`, running `process_obj` again on the resulting state
returns it unchanged. -/
theorem processObj_idem_aux (s : State) (n : String) (obj ce : Obj)
    (hf : s.find n = some obj) (hm : obj.type = ObjType.MESH)
    (hfc : findCustomEmpty s obj.children = .ok (some ce)) :
    processObj n (origin_set_cursor { s with cursor := ce.matrix_world.tr, selected := [n], active := some n }) =
    .ok (origin_set_cursor { s with cursor := ce.matrix_world.tr, selected := [n], active := some n }) := by
  have f2 : (origin_set_cursor { s with cursor := ce.matrix_world.tr, selected := [n], active := some n }).find n =
      some (originSetFn ce.matrix_world.tr obj) :=
    State.find_update_self (originSetFn ce.matrix_world.tr) (fun _ => rfl) hf
  have hgm : (originSetFn ce.matrix_world.tr obj).type = ObjType.MESH := hm
  have hcongr : findCustomEmpty (origin_set_cursor { s with cursor := ce.matrix_world.tr, selected := [n], active := some n }) obj.children =
      findCustomEmpty s obj.children := by
    refine findCustomEmpty_congr s
      (origin_set_cursor { s with cursor := ce.matrix_world.tr, selected := [n], active := some n })
      rfl obj.children (fun c hc => ?_)
    by_cases hcn : c = n
    · subst hcn
      refine Or.inr ⟨obj, originSetFn ce.matrix_world.tr obj, hf, f2, ?_, ?_⟩
      · intro he
        rw [hm] at he
        cases he
      · intro he
        rw [hgm] at he
        cases he
    · exact Or.inl (State.find_update_ne (originSetFn ce.matrix_world.tr)
        (fun _ => rfl) (fun he => hcn he.symm))
  have f5 : findCustomEmpty (origin_set_cursor { s with cursor := ce.matrix_world.tr, selected := [n], active := some n }) (originSetFn ce.matrix_world.tr obj).children =
      .ok (some ce) := by
    rw [show (originSetFn ce.matrix_world.tr obj).children = obj.children from rfl, hcongr, hfc]
  have hobjT : ∀ ob ∈ (origin_set_cursor { s with cursor := ce.matrix_world.tr, selected := [n], active := some n }).objects,
      ob.name = n → ob.matrix_world.tr = ce.matrix_world.tr := by
    intro ob hob hobn
    have hTobj : (origin_set_cursor { s with cursor := ce.matrix_world.tr, selected := [n], active := some n }).objects =
        s.objects.map (fun o => if o.name = n then originSetFn ce.matrix_world.tr o else o) := rfl
    rw [hTobj] at hob
    rcases List.mem_map.1 hob with ⟨o0, _, hoe⟩
    by_cases h0 : o0.name = n
    · rw [if_pos h0] at hoe
      rw [← hoe]
      rfl
    · rw [if_neg h0] at hoe
      rw [← hoe] at hobn
      exact absurd hobn h0
  have hTsel : (origin_set_cursor { s with cursor := ce.matrix_world.tr, selected := [n], active := some n }).selected = [n] :=
    origin_set_selected _
  have hTcur : (origin_set_cursor { s with cursor := ce.matrix_world.tr, selected := [n], active := some n }).cursor = ce.matrix_world.tr :=
    origin_set_cursor_eq _
  have hTact : (origin_set_cursor { s with cursor := ce.matrix_world.tr, selected := [n], active := some n }).active = some n :=
    origin_set_active _
  have hT3 : ({ (origin_set_cursor { s with cursor := ce.matrix_world.tr, selected := [n], active := some n }) with cursor := ce.matrix_world.tr, selected := [n], active := some n } : State) =
      origin_set_cursor { s with cursor := ce.matrix_world.tr, selected := [n], active := some n } :=
    State.eq_of_fields rfl hTcur.symm hTsel.symm hTact.symm rfl
  unfold processObj
  rw [f2]
  simp only [hgm, if_true, f5]
  refine congrArg PRes.ok ?_
  exact (origin_set_cursor_already _ n ce.matrix_world.tr rfl rfl hobjT).trans hT3

/-- Claim C9: `set_origin_to_custom` runs the same per-object processing
loop twice in sequence (the duplicated block), and the second
application of `process_obj` to an object has no effect beyond the
first: when `process_obj` succeeds with state `s'`, running it again
from `s'` returns `s'` unchanged (same object origins, cursor,
selection, and active object). -/
theorem claim9_duplicated_block (sel : List String) (s0 : State) (n : String) :
    (set_origin_to_custom sel s0 =
      match processLoop sel s0 with
      | .ok s1 => processLoop sel s1
      | .err e s1 => .err e s1) ∧
    (∀ s s' : State, processObj n s = .ok s' → processObj n s' = .ok s') := by
  refine ⟨rfl, ?_⟩
  intro s s' hok
  unfold processObj at hok
  cases hf : s.find n with
  | none =>
    rw [hf] at hok
    cases hok
    unfold processObj
    rw [hf]
  | some obj =>
    rw [hf] at hok
    by_cases hm : obj.type = ObjType.MESH
    · simp only [hm, if_true] at hok
      cases hfc : findCustomEmpty s obj.children with
      | error e =>
        rw [hfc] at hok
        cases hok
      | ok r =>
        rw [hfc] at hok
        cases r with
        | none =>
          cases hok
          unfold processObj
          rw [hf]
          simp only [hm, if_true]
          rw [hfc]
        | some ce =>
          cases hok
          exact processObj_idem_aux s n obj ce hf hm hfc
    · simp only [hm, if_false] at hok
      cases hok
      unfold processObj
      rw [hf]
      simp only [hm, if_false]

/-- Concrete instantiation of C9: processing `wMesh` a second time after
its origin moved to the marker leaves the state unchanged. -/
theorem claim9_witness :
    set_origin_to_custom ["M"] wSceneCustom =
      (match processLoop ["M"] wSceneCustom with
        | .ok s1 => processLoop ["M"] s1
        | .err e s1 => .err e s1) ∧
    (∃ s', processObj "M" wSceneCustom = .ok s' ∧ processObj "M" s' = .ok s') := by
  refine ⟨(claim9_duplicated_block ["M"] wSceneCustom "M").1, ?_⟩
  refine ⟨(processObj "M" wSceneCustom).state, ?_, ?_⟩
  · rfl
  · exact (claim9_duplicated_block ["M"] wSceneCustom "M").2 wSceneCustom
      (processObj "M" wSceneCustom).state rfl

/-- Claim C10, counterexample to the universally quantified failure: a
custom-origin export on a scene without the `selected_empty` attribute
where the selected mesh has no children completes with FINISHED — the
lazy marker-search generator never reaches an empty child, so
`scene.selected_empty` is never read and no `AttributeError` is
raised. -/
theorem claim10_counterexample :
    wSceneCustomNoChild.props.custom_origin = true ∧
    wSceneCustomNoChild.props.selected_empty = none ∧
    filteredSelection wSceneCustomNoChild = ["M"] ∧
    (execute false wSceneCustomNoChild).result = .FINISHED :=
  ⟨rfl, rfl, rfl, rfl⟩

/-- Claim C10 as amended: the add-on registers `export_types`,
`batch_export`, `mesh_directory_path`, `set_file_name`,
`origin_at_bottom`, `custom_origin` (and the `ExportOptions` pointer),
but never `selected_empty`; and every export run with `custom_origin`
set on a scene where `selected_empty` is undefined and where some
selected mesh has at least one child of type `EMPTY` raises
`AttributeError` during the marker lookup, before any origin is
changed — the restore phase still runs, and the final state is the
initial one with only the cursor recentred. -/
theorem claim10_amended (orc : Bool) (s : State)
    (hN : (s.objects.map Obj.name).Nodup)
    (hcust : s.props.custom_origin = true)
    (hse : s.props.selected_empty = none)
    (hwit : ∃ n ∈ filteredSelection s, ∃ o, s.find n = some o ∧ o.type = ObjType.MESH ∧
      ∃ c ∈ o.children, ∃ ch, s.find c = some ch ∧ ch.type = ObjType.EMPTY) :
    "selected_empty" ∉ registeredSceneProps ∧
    (execute orc s).result = .raised .attributeError ∧
    (execute orc s).final = { s with cursor := vzero } := by
  have hne : filteredSelection s ≠ [] := by
    rcases hwit with ⟨n, hn, _⟩
    intro hc
    rw [hc] at hn
    cases hn
  have herr : set_origin_to_custom (filteredSelection s) s = .err .attributeError s :=
    set_origin_to_custom_se_none_err hse hwit
  have horigin : originPhase (filteredSelection s) s = .err .attributeError s := by
    rw [originPhase_custom hcust, herr]
  have htb : tryBody orc (filteredSelection s) s = ⟨s, [], some .attributeError⟩ :=
    tryBody_err horigin
  rw [execute_of_ne orc hne, htb]
  refine ⟨by decide, rfl, ?_⟩
  exact restore_id hN (filteredSelection s)

/-- Concrete instantiation of the amended C10: the mesh has an empty
child, so the run raises `AttributeError` and the restore phase leaves
the scene unchanged up to the recentred cursor. -/
theorem claim10_witness :
    ((wSceneCustomNoAttr.objects.map Obj.name).Nodup ∧
     wSceneCustomNoAttr.props.custom_origin = true ∧
     wSceneCustomNoAttr.props.selected_empty = none) ∧
    "selected_empty" ∉ registeredSceneProps ∧
    (execute false wSceneCustomNoAttr).result = .raised .attributeError ∧
    (execute false wSceneCustomNoAttr).final =
      { wSceneCustomNoAttr with cursor := vzero } := by
  refine ⟨⟨by decide, rfl, rfl⟩, ?_⟩
  exact claim10_amended false wSceneCustomNoAttr (by decide) rfl rfl
    ⟨"M", by decide, wMesh, by decide, by decide, "E", by decide, wEmpty, by decide, by decide⟩
